import Mathlib

/-!
# Tripod gait (`tripod.c`): shallow embedding and verified properties

The C `double` values are idealised as exact rationals (`ℚ`): every finite
double is a rational, comparisons are exact, and arithmetic is taken without
rounding, NaN or infinities.  The function-local `static uint8_t i` of
`gait_step` is threaded explicitly as a `Nat` (reduced modulo `2 ^ 8`), and the
calls to the actuation layer (`leg_set_current_position_relative`,
`leg_set_current_position_absolute`, `leg_delay_ms`) are recorded, in order and
with their arguments in source position, as a list of `Cmd`.
-/

namespace Tripod

/-! ## Symbols of `gait.h` -/

/-- Symbols supplied by `gait.h` (leg identifiers and joint constants), which
`tripod.c` only uses; they are taken as parameters of the embedding. -/
structure Config where
  FRONT_LEFT : Nat
  FRONT_RIGHT : Nat
  MIDDLE_LEFT : Nat
  MIDDLE_RIGHT : Nat
  REAR_LEFT : Nat
  REAR_RIGHT : Nat
  COXA_FORWARD : ℚ
  COXA_REVERSE : ℚ
  COXA_NEUTRAL : ℚ
  TIBIA_RAISED : ℚ
  TIBIA_LOWERED : ℚ
  TIBIA_STEP : ℚ

/-- The six leg identifiers name six different legs. -/
def Config.distinctLegs (cfg : Config) : Prop :=
  [cfg.FRONT_LEFT, cfg.MIDDLE_RIGHT, cfg.REAR_LEFT,
   cfg.FRONT_RIGHT, cfg.MIDDLE_LEFT, cfg.REAR_RIGHT].Nodup

instance (cfg : Config) : Decidable cfg.distinctLegs :=
  inferInstanceAs (Decidable ([cfg.FRONT_LEFT, cfg.MIDDLE_RIGHT, cfg.REAR_LEFT,
    cfg.FRONT_RIGHT, cfg.MIDDLE_LEFT, cfg.REAR_RIGHT].Nodup))

/-- Modelled from the spec: `gait.h` is not among the sources, so this sample
configuration follows the spec's data model (six leg identifiers, even on the
left side and odd on the right, `COXA_REVERSE == -COXA_FORWARD`); the joint
angles are sample values.  It is only used to evaluate the definitions at
concrete inputs. -/
def sampleConfig : Config where
  FRONT_LEFT := 0
  FRONT_RIGHT := 1
  MIDDLE_LEFT := 2
  MIDDLE_RIGHT := 3
  REAR_LEFT := 4
  REAR_RIGHT := 5
  COXA_FORWARD := 10
  COXA_REVERSE := -10
  COXA_NEUTRAL := 0
  TIBIA_RAISED := 30
  TIBIA_LOWERED := 0
  TIBIA_STEP := 15

/-! ## Constants of `tripod.c` -/

def DELAY : ℚ := 80

def PRIMARY_CUTOFF : ℚ := 0.2

def SECONDARY_CUTOFF : ℚ := 0.2

/-! ## `get_delay_multiplier` -/

def get_delay_multiplier (measurement : ℚ) : ℚ :=
  if |measurement| ≥ 0.8 then 1
  else if |measurement| ≥ 0.5 then 1.3
  else if |measurement| ≥ 0.3 then 1.5
  else 1.8

/-! ## `gait_step` -/

/-- The three locals that the branch cascade of `gait_step` assigns. -/
structure Resolved where
  left_direction : ℚ
  right_direction : ℚ
  delay_multiplier : ℚ
deriving DecidableEq

/-- The branch cascade of `gait_step` (lines 31-71): `none` is the final
`else { return; }`. -/
def resolve (velocity direction : ℚ) : Option Resolved :=
  if |velocity| ≥ PRIMARY_CUTOFF ∧ |direction| < SECONDARY_CUTOFF then
    some { left_direction := velocity
           right_direction := velocity
           delay_multiplier := get_delay_multiplier velocity }
  else if |velocity| ≥ PRIMARY_CUTOFF ∧ |direction| ≥ SECONDARY_CUTOFF
      ∧ |velocity| > |direction| then
    if direction < 0 then
      some { right_direction := velocity
             left_direction := velocity + min 1 (direction * 2)
             delay_multiplier := get_delay_multiplier velocity }
    else
      some { right_direction := velocity - min 1 (direction * 2)
             left_direction := velocity
             delay_multiplier := get_delay_multiplier velocity }
  else if |direction| ≥ PRIMARY_CUTOFF ∧ |velocity| ≥ SECONDARY_CUTOFF
      ∧ |direction| > |velocity| then
    if velocity < 0 then
      some { right_direction := direction * -1 + velocity
             left_direction := direction
             delay_multiplier := get_delay_multiplier direction }
    else
      some { right_direction := direction * -1 - velocity
             left_direction := direction
             delay_multiplier := get_delay_multiplier direction }
  else if |direction| ≥ PRIMARY_CUTOFF ∧ |velocity| < SECONDARY_CUTOFF then
    some { right_direction := direction * -1
           left_direction := direction
           delay_multiplier := get_delay_multiplier direction }
  else
    none

/-- One call to the actuation layer, arguments in source position. -/
inductive Cmd where
  | relative (leg : Nat) (a1 a2 a3 : ℚ)
  | absolute (leg : Nat) (a1 a2 a3 : ℚ)
  | delay (ms : ℚ)
deriving DecidableEq

/-- The assignment of `leg_a_0..2` (lifted and moved) and `leg_b_0..2` (moved
without lifting) from the alternation bit (lines 74-92). -/
def select_legs (cfg : Config) (i : Nat) : List Nat × List Nat :=
  if i = 0 then
    ([cfg.FRONT_LEFT, cfg.MIDDLE_RIGHT, cfg.REAR_LEFT],
     [cfg.FRONT_RIGHT, cfg.MIDDLE_LEFT, cfg.REAR_RIGHT])
  else
    ([cfg.FRONT_RIGHT, cfg.MIDDLE_LEFT, cfg.REAR_RIGHT],
     [cfg.FRONT_LEFT, cfg.MIDDLE_RIGHT, cfg.REAR_LEFT])

/-- The `relevant_direction_*` locals (lines 101-107). -/
def relevant_direction (r : Resolved) (leg : Nat) : ℚ :=
  if leg &&& 0x01 = 0x00 then r.left_direction else r.right_direction

/-- The coxa argument of the lifted legs (lines 110-112 and 123-125). -/
def swing_coxa (cfg : Config) (r : Resolved) (leg : Nat) : ℚ :=
  if relevant_direction r leg > 0 then cfg.COXA_REVERSE else cfg.COXA_FORWARD

/-- The calls of `gait_step` after the branch cascade (lines 95-126). -/
def step_commands (cfg : Config) (r : Resolved) (a b : List Nat) : List Cmd :=
  a.map (fun leg => Cmd.relative leg 0 0 cfg.TIBIA_STEP)
  ++ [Cmd.delay (DELAY * 2 * r.delay_multiplier)]
  ++ a.map (fun leg => Cmd.absolute leg 0 (swing_coxa cfg r leg) cfg.TIBIA_RAISED)
  ++ b.map (fun leg =>
      Cmd.absolute leg 0 (cfg.COXA_FORWARD * relevant_direction r leg) cfg.TIBIA_LOWERED)
  ++ [Cmd.delay (DELAY * 2 * r.delay_multiplier)]
  ++ a.map (fun leg => Cmd.absolute leg 0 (swing_coxa cfg r leg) cfg.TIBIA_LOWERED)
  ++ [Cmd.delay (DELAY * 1 * r.delay_multiplier)]

/-- `gait_step`: from the value of the static `i` before the call to its value
after the call and the calls issued. -/
def gait_step (cfg : Config) (i : Nat) (velocity direction : ℚ) : Nat × List Cmd :=
  let i := (i ^^^ 0x01) % 256
  match resolve velocity direction with
  | none => (i, [])
  | some r => (i, step_commands cfg r (select_legs cfg i).1 (select_legs cfg i).2)

/-! ## `gait_init` -/

/-- One half of `gait_init` (lines 130-141, and 143-154 for the other legs). -/
def init_commands (cfg : Config) (l0 l1 l2 : Nat) : List Cmd :=
  [ Cmd.relative l0 0 0 cfg.TIBIA_STEP,
    Cmd.relative l1 0 0 cfg.TIBIA_STEP,
    Cmd.relative l2 0 0 cfg.TIBIA_STEP,
    Cmd.delay (DELAY * 2),
    Cmd.absolute l0 0 cfg.COXA_NEUTRAL cfg.TIBIA_RAISED,
    Cmd.absolute l1 0 cfg.COXA_NEUTRAL cfg.TIBIA_RAISED,
    Cmd.absolute l2 0 cfg.COXA_NEUTRAL cfg.TIBIA_RAISED,
    Cmd.delay (DELAY * 2),
    Cmd.absolute l0 0 cfg.COXA_NEUTRAL cfg.TIBIA_LOWERED,
    Cmd.absolute l1 0 cfg.COXA_NEUTRAL cfg.TIBIA_LOWERED,
    Cmd.absolute l2 0 cfg.COXA_NEUTRAL cfg.TIBIA_LOWERED,
    Cmd.delay (DELAY * 1) ]

/-- `gait_init`: it does not touch the static `i` of `gait_step`, so only the
calls issued are returned. -/
def gait_init (cfg : Config) : List Cmd :=
  init_commands cfg cfg.FRONT_LEFT cfg.MIDDLE_RIGHT cfg.REAR_LEFT
  ++ init_commands cfg cfg.FRONT_RIGHT cfg.MIDDLE_LEFT cfg.REAR_RIGHT

/-! ## Observations on a command trace -/

/-- Legs addressed by `leg_set_current_position_relative` calls, in order. -/
def relativeLegs : List Cmd → List Nat
  | [] => []
  | Cmd.relative leg _ _ _ :: t => leg :: relativeLegs t
  | _ :: t => relativeLegs t

/-- Legs addressed by `leg_set_current_position_absolute` calls, in order. -/
def absoluteLegs : List Cmd → List Nat
  | [] => []
  | Cmd.absolute leg _ _ _ :: t => leg :: absoluteLegs t
  | _ :: t => absoluteLegs t

/-- Arguments of the `leg_delay_ms` calls, in order. -/
def delays : List Cmd → List ℚ
  | [] => []
  | Cmd.delay ms :: t => ms :: delays t
  | _ :: t => delays t

/-- Legs that are moved by absolute calls but never lifted by a relative call. -/
def stanceLegs (t : List Cmd) : List Nat :=
  (absoluteLegs t).filter (fun leg => leg ∉ relativeLegs t)

/-- The arguments of the `leg_set_current_position_absolute` calls, in order:
leg and the three following arguments in source position. -/
def absoluteCalls : List Cmd → List (Nat × ℚ × ℚ × ℚ)
  | [] => []
  | Cmd.absolute leg a1 a2 a3 :: t => (leg, a1, a2, a3) :: absoluteCalls t
  | _ :: t => absoluteCalls t

/-- The arguments of the `leg_set_current_position_relative` calls, in order. -/
def relativeCalls : List Cmd → List (Nat × ℚ × ℚ × ℚ)
  | [] => []
  | Cmd.relative leg a1 a2 a3 :: t => (leg, a1, a2, a3) :: relativeCalls t
  | _ :: t => relativeCalls t

/-- The side magnitude of a leg as the spec words it: the left magnitude for an
even identifier, the right magnitude for an odd one.  It is compared with
`relevant_direction`, which is the code's bit test. -/
def side_magnitude (r : Resolved) (leg : Nat) : ℚ :=
  if leg % 2 = 0 then r.left_direction else r.right_direction

/-- `gait_init` as a transition on the static `i` of `gait_step`: the static is
local to `gait_step`, `gait_init` has no statement that names it, so the value
is passed through. -/
def gait_init_on (cfg : Config) (i : Nat) : Nat × List Cmd :=
  (i, gait_init cfg)

/-! ## The two tripod sets -/

/-- Set A: front-left, middle-right, rear-left. -/
def Config.setA (cfg : Config) : List Nat :=
  [cfg.FRONT_LEFT, cfg.MIDDLE_RIGHT, cfg.REAR_LEFT]

/-- Set B: front-right, middle-left, rear-right. -/
def Config.setB (cfg : Config) : List Nat :=
  [cfg.FRONT_RIGHT, cfg.MIDDLE_LEFT, cfg.REAR_RIGHT]

/-- All six legs. -/
def Config.allLegs (cfg : Config) : List Nat :=
  [cfg.FRONT_LEFT, cfg.FRONT_RIGHT, cfg.MIDDLE_LEFT,
   cfg.MIDDLE_RIGHT, cfg.REAR_LEFT, cfg.REAR_RIGHT]

/-! ## Auxiliary lemmas -/

theorem relativeLegs_append (s t : List Cmd) :
    relativeLegs (s ++ t) = relativeLegs s ++ relativeLegs t := by
  induction s with
  | nil => rfl
  | cons c s ih => cases c <;> simp [relativeLegs, ih]

theorem absoluteLegs_append (s t : List Cmd) :
    absoluteLegs (s ++ t) = absoluteLegs s ++ absoluteLegs t := by
  induction s with
  | nil => rfl
  | cons c s ih => cases c <;> simp [absoluteLegs, ih]

theorem delays_append (s t : List Cmd) :
    delays (s ++ t) = delays s ++ delays t := by
  induction s with
  | nil => rfl
  | cons c s ih => cases c <;> simp [delays, ih]

theorem relativeLegs_map_relative (a : List Nat) (x y z : ℚ) :
    relativeLegs (a.map (fun leg => Cmd.relative leg x y z)) = a := by
  induction a with
  | nil => rfl
  | cons l a ih => simp [relativeLegs, ih]

theorem relativeLegs_map_absolute (a : List Nat) (x z : ℚ) (f : Nat → ℚ) :
    relativeLegs (a.map (fun leg => Cmd.absolute leg x (f leg) z)) = [] := by
  induction a with
  | nil => rfl
  | cons l a ih => simp [relativeLegs, ih]

theorem absoluteLegs_map_relative (a : List Nat) (x y z : ℚ) :
    absoluteLegs (a.map (fun leg => Cmd.relative leg x y z)) = [] := by
  induction a with
  | nil => rfl
  | cons l a ih => simp [absoluteLegs, ih]

theorem absoluteLegs_map_absolute (a : List Nat) (x z : ℚ) (f : Nat → ℚ) :
    absoluteLegs (a.map (fun leg => Cmd.absolute leg x (f leg) z)) = a := by
  induction a with
  | nil => rfl
  | cons l a ih => simp [absoluteLegs, ih]

/-- The legs lifted by the calls of a step are exactly the `leg_a` legs. -/
theorem relativeLegs_step_commands (cfg : Config) (r : Resolved) (a b : List Nat) :
    relativeLegs (step_commands cfg r a b) = a := by
  simp [step_commands, relativeLegs_append, relativeLegs_map_relative,
    relativeLegs_map_absolute, relativeLegs]

/-- The absolute calls of a step address the `leg_a` legs, the `leg_b` legs and
the `leg_a` legs again. -/
theorem absoluteLegs_step_commands (cfg : Config) (r : Resolved) (a b : List Nat) :
    absoluteLegs (step_commands cfg r a b) = a ++ b ++ a := by
  simp [step_commands, absoluteLegs_append, absoluteLegs_map_relative,
    absoluteLegs_map_absolute, absoluteLegs]

/-- The static `i` after a call, whatever the command. -/
theorem gait_step_fst (cfg : Config) (i : Nat) (v d : ℚ) :
    (gait_step cfg i v d).1 = (i ^^^ 0x01) % 256 := by
  unfold gait_step
  cases resolve v d <;> rfl

/-- A call whose branch cascade ends in the final `else` issues nothing. -/
theorem gait_step_snd_of_none (cfg : Config) (i : Nat) (v d : ℚ)
    (h : resolve v d = none) : (gait_step cfg i v d).2 = [] := by
  unfold gait_step
  simp only [h]

/-- A call whose branch cascade assigns `r` issues the calls of lines 95-126. -/
theorem gait_step_snd_of_some (cfg : Config) (i : Nat) (v d : ℚ) (r : Resolved)
    (h : resolve v d = some r) :
    (gait_step cfg i v d).2 =
      step_commands cfg r (select_legs cfg ((i ^^^ 0x01) % 256)).1
        (select_legs cfg ((i ^^^ 0x01) % 256)).2 := by
  unfold gait_step
  simp only [h]

/-- Exactly which commands fall through to the final `else` of `gait_step`:
both components below the cutoff, or both at or above it with equal
absolute values. -/
theorem resolve_eq_none_iff (v d : ℚ) :
    resolve v d = none ↔
      (|v| < 0.2 ∧ |d| < 0.2) ∨ (|v| ≥ 0.2 ∧ |d| ≥ 0.2 ∧ |v| = |d|) := by
  unfold resolve PRIMARY_CUTOFF SECONDARY_CUTOFF
  constructor
  · intro h
    split_ifs at h with h1 h2 h3 h4 h5 h6
    by_cases hv : |v| < 0.2
    · by_cases hd : |d| < 0.2
      · exact Or.inl ⟨hv, hd⟩
      · exact absurd ⟨not_lt.mp hd, hv⟩ h6
    · have hv' : |v| ≥ 0.2 := not_lt.mp hv
      by_cases hd : |d| < 0.2
      · exact absurd ⟨hv', hd⟩ h1
      · have hd' : |d| ≥ 0.2 := not_lt.mp hd
        refine Or.inr ⟨hv', hd', le_antisymm ?_ ?_⟩
        · by_contra hc
          exact h2 ⟨hv', hd', not_le.mp hc⟩
        · by_contra hc
          exact h4 ⟨hd', hv', not_le.mp hc⟩
  · rintro (⟨hv, hd⟩ | ⟨hv, hd, he⟩)
    · have hv' : ¬ |v| ≥ 0.2 := not_le.mpr hv
      have hd' : ¬ |d| ≥ 0.2 := not_le.mpr hd
      simp [hv', hd']
    · have hv' : ¬ |v| < 0.2 := not_lt.mpr hv
      have hd' : ¬ |d| < 0.2 := not_lt.mpr hd
      simp [hv', hd', he]

/-- The legs lifted by a call that issues motion are the `leg_a` legs chosen
from the flipped bit. -/
theorem relativeLegs_gait_step (cfg : Config) (i : Nat) (v d : ℚ)
    (h : resolve v d ≠ none) :
    relativeLegs (gait_step cfg i v d).2 = (select_legs cfg ((i ^^^ 0x01) % 256)).1 := by
  obtain ⟨r, hr⟩ := Option.ne_none_iff_exists'.mp h
  rw [gait_step_snd_of_some cfg i v d r hr, relativeLegs_step_commands]

/-- Flipping the alternation bit twice restores it. -/
theorem flip_flip (i : Nat) (hi : i < 2) :
    ((((i ^^^ 0x01) % 256) ^^^ 0x01) % 256) = i := by
  interval_cases i <;> rfl

/-- Flipping the alternation bit changes it. -/
theorem flip_ne (i : Nat) (hi : i < 2) : (i ^^^ 0x01) % 256 ≠ i := by
  interval_cases i <;> decide

/-- Flipping the alternation bit keeps it a bit. -/
theorem flip_lt (i : Nat) (hi : i < 2) : (i ^^^ 0x01) % 256 < 2 := by
  interval_cases i <;> decide

/-- With six different legs, the legs moved by absolute calls only are the
`leg_b` legs. -/
theorem stanceLegs_step_commands (cfg : Config) (r : Resolved)
    (a0 a1 a2 b0 b1 b2 : Nat) (h : [a0, a1, a2, b0, b1, b2].Nodup) :
    stanceLegs (step_commands cfg r [a0, a1, a2] [b0, b1, b2]) = [b0, b1, b2] := by
  unfold stanceLegs
  rw [absoluteLegs_step_commands, relativeLegs_step_commands]
  simp at h
  obtain ⟨⟨_, _, h03, h04, h05⟩, ⟨_, h13, h14, h15⟩, ⟨h23, h24, h25⟩, _⟩ := h
  simp [List.filter, Ne.symm h03, Ne.symm h04, Ne.symm h05, Ne.symm h13, Ne.symm h14,
    Ne.symm h15, Ne.symm h23, Ne.symm h24, Ne.symm h25]

/-- The `leg_a` and `leg_b` legs when the flipped bit is `0`. -/
theorem select_legs_zero (cfg : Config) : select_legs cfg 0 = (cfg.setA, cfg.setB) := rfl

/-- The `leg_a` and `leg_b` legs when the flipped bit is `1`. -/
theorem select_legs_one (cfg : Config) : select_legs cfg 1 = (cfg.setB, cfg.setA) := rfl

/-- The command `0.5, 0` issues motion. -/
theorem resolve_half_zero_ne_none : resolve 0.5 0 ≠ none := by
  intro h
  rcases (resolve_eq_none_iff _ _).mp h with ⟨h1, _⟩ | ⟨_, h2, _⟩
  · norm_num [abs_lt] at h1
  · norm_num at h2

/-- Second branch of the cascade (lines 38-48), `direction < 0`. -/
theorem resolve_velocity_dominant_neg (v d : ℚ)
    (hv : |v| ≥ 0.2) (hd : |d| ≥ 0.2) (hvd : |v| > |d|) (hneg : d < 0) :
    resolve v d = some ⟨v + min 1 (d * 2), v, get_delay_multiplier v⟩ := by
  unfold resolve PRIMARY_CUTOFF SECONDARY_CUTOFF
  rw [if_neg (fun h => absurd hd (not_le.mpr h.2)), if_pos ⟨hv, hd, hvd⟩, if_pos hneg]

/-- Second branch of the cascade (lines 38-48), `direction ≥ 0`. -/
theorem resolve_velocity_dominant_nonneg (v d : ℚ)
    (hv : |v| ≥ 0.2) (hd : |d| ≥ 0.2) (hvd : |v| > |d|) (hpos : ¬ d < 0) :
    resolve v d = some ⟨v, v - min 1 (d * 2), get_delay_multiplier v⟩ := by
  unfold resolve PRIMARY_CUTOFF SECONDARY_CUTOFF
  rw [if_neg (fun h => absurd hd (not_le.mpr h.2)), if_pos ⟨hv, hd, hvd⟩, if_neg hpos]

/-- Third branch of the cascade (lines 50-60), `velocity < 0`. -/
theorem resolve_direction_dominant_neg (v d : ℚ)
    (hd : |d| ≥ 0.2) (hv : |v| ≥ 0.2) (hdv : |d| > |v|) (hneg : v < 0) :
    resolve v d = some ⟨d, d * -1 + v, get_delay_multiplier d⟩ := by
  unfold resolve PRIMARY_CUTOFF SECONDARY_CUTOFF
  rw [if_neg (fun h => absurd hd (not_le.mpr h.2)),
    if_neg (fun h => absurd h.2.2 (not_lt.mpr (le_of_lt hdv))),
    if_pos ⟨hd, hv, hdv⟩, if_pos hneg]

/-- Third branch of the cascade (lines 50-60), `velocity ≥ 0`. -/
theorem resolve_direction_dominant_nonneg (v d : ℚ)
    (hd : |d| ≥ 0.2) (hv : |v| ≥ 0.2) (hdv : |d| > |v|) (hpos : ¬ v < 0) :
    resolve v d = some ⟨d, d * -1 - v, get_delay_multiplier d⟩ := by
  unfold resolve PRIMARY_CUTOFF SECONDARY_CUTOFF
  rw [if_neg (fun h => absurd hd (not_le.mpr h.2)),
    if_neg (fun h => absurd h.2.2 (not_lt.mpr (le_of_lt hdv))),
    if_pos ⟨hd, hv, hdv⟩, if_neg hpos]

/-- The `leg_a` and `leg_b` legs are Set A and Set B, in one order or the other. -/
theorem select_legs_cases (cfg : Config) (i : Nat) :
    select_legs cfg i = (cfg.setA, cfg.setB) ∨ select_legs cfg i = (cfg.setB, cfg.setA) := by
  unfold select_legs
  split_ifs
  · exact Or.inl rfl
  · exact Or.inr rfl

/-- The calls of a step for explicit `leg_a` and `leg_b` triples, written out. -/
theorem step_commands_triples (cfg : Config) (r : Resolved) (a0 a1 a2 b0 b1 b2 : Nat) :
    step_commands cfg r [a0, a1, a2] [b0, b1, b2] =
      [ Cmd.relative a0 0 0 cfg.TIBIA_STEP,
        Cmd.relative a1 0 0 cfg.TIBIA_STEP,
        Cmd.relative a2 0 0 cfg.TIBIA_STEP,
        Cmd.delay (DELAY * 2 * r.delay_multiplier),
        Cmd.absolute a0 0 (swing_coxa cfg r a0) cfg.TIBIA_RAISED,
        Cmd.absolute a1 0 (swing_coxa cfg r a1) cfg.TIBIA_RAISED,
        Cmd.absolute a2 0 (swing_coxa cfg r a2) cfg.TIBIA_RAISED,
        Cmd.absolute b0 0 (cfg.COXA_FORWARD * relevant_direction r b0) cfg.TIBIA_LOWERED,
        Cmd.absolute b1 0 (cfg.COXA_FORWARD * relevant_direction r b1) cfg.TIBIA_LOWERED,
        Cmd.absolute b2 0 (cfg.COXA_FORWARD * relevant_direction r b2) cfg.TIBIA_LOWERED,
        Cmd.delay (DELAY * 2 * r.delay_multiplier),
        Cmd.absolute a0 0 (swing_coxa cfg r a0) cfg.TIBIA_LOWERED,
        Cmd.absolute a1 0 (swing_coxa cfg r a1) cfg.TIBIA_LOWERED,
        Cmd.absolute a2 0 (swing_coxa cfg r a2) cfg.TIBIA_LOWERED,
        Cmd.delay (DELAY * 1 * r.delay_multiplier) ] := rfl

/-- The delays of a step, for any `leg_a` and `leg_b` lists. -/
theorem delays_step_commands (cfg : Config) (r : Resolved) (a b : List Nat) :
    delays (step_commands cfg r a b) =
      [DELAY * 2 * r.delay_multiplier, DELAY * 2 * r.delay_multiplier,
       DELAY * 1 * r.delay_multiplier] := by
  have hrel : ∀ (l : List Nat) (x y z : ℚ),
      delays (l.map (fun leg => Cmd.relative leg x y z)) = [] := by
    intro l x y z
    induction l with
    | nil => rfl
    | cons c l ih => simp [delays, ih]
  have habs : ∀ (l : List Nat) (x z : ℚ) (f : Nat → ℚ),
      delays (l.map (fun leg => Cmd.absolute leg x (f leg) z)) = [] := by
    intro l x z f
    induction l with
    | nil => rfl
    | cons c l ih => simp [delays, ih]
  simp [step_commands, delays_append, hrel, habs, delays]

/-- The total delay of a step is `400` times its multiplier. -/
theorem delays_sum_step_commands (cfg : Config) (r : Resolved) (a b : List Nat) :
    (delays (step_commands cfg r a b)).sum = 400 * r.delay_multiplier := by
  rw [delays_step_commands]
  simp [DELAY]
  ring

/-- The command `0.5, 0` takes the first branch of the cascade. -/
theorem resolve_half_zero :
    resolve 0.5 0 = some ⟨0.5, 0.5, 1.3⟩ := by
  have h : resolve 0.5 0 = some ⟨0.5, 0.5, get_delay_multiplier 0.5⟩ := by
    unfold resolve PRIMARY_CUTOFF SECONDARY_CUTOFF
    rw [if_pos ⟨by norm_num [le_abs], by norm_num⟩]
  rw [h]
  norm_num [get_delay_multiplier, le_abs]

/-- The relative calls of a step: one per `leg_a` leg, `(0, 0, TIBIA_STEP)`. -/
theorem relative_mem_step_commands (cfg : Config) (r : Resolved) (a b : List Nat)
    (leg : Nat) (x y z : ℚ) :
    Cmd.relative leg x y z ∈ step_commands cfg r a b ↔
      leg ∈ a ∧ x = 0 ∧ y = 0 ∧ z = cfg.TIBIA_STEP := by
  simp only [step_commands, List.mem_append, List.mem_map, List.mem_singleton]
  constructor
  · rintro (((((((⟨l, hl, he⟩ | he) | ⟨l, _, he⟩) | ⟨l, _, he⟩) | he) | ⟨l, _, he⟩) | he))
    · injection he with h1 h2 h3 h4
      subst h1
      exact ⟨hl, h2.symm, h3.symm, h4.symm⟩
    all_goals cases he
  · rintro ⟨hl, rfl, rfl, rfl⟩
    exact Or.inl (Or.inl (Or.inl (Or.inl (Or.inl (Or.inl ⟨leg, hl, rfl⟩)))))

/-- The absolute calls of a step: the swing calls of the `leg_a` legs, the
calls of the `leg_b` legs, and the settle calls of the `leg_a` legs. -/
theorem absolute_mem_step_commands (cfg : Config) (r : Resolved) (a b : List Nat)
    (leg : Nat) (x y z : ℚ) :
    Cmd.absolute leg x y z ∈ step_commands cfg r a b ↔
      (leg ∈ a ∧ x = 0 ∧ y = swing_coxa cfg r leg ∧ z = cfg.TIBIA_RAISED) ∨
      (leg ∈ b ∧ x = 0 ∧ y = cfg.COXA_FORWARD * relevant_direction r leg ∧
        z = cfg.TIBIA_LOWERED) ∨
      (leg ∈ a ∧ x = 0 ∧ y = swing_coxa cfg r leg ∧ z = cfg.TIBIA_LOWERED) := by
  simp only [step_commands, List.mem_append, List.mem_map, List.mem_singleton]
  constructor
  · rintro (((((((⟨l, _, he⟩ | he) | ⟨l, hl, he⟩) | ⟨l, hl, he⟩) | he) | ⟨l, hl, he⟩) | he))
    · cases he
    · cases he
    · injection he with h1 h2 h3 h4
      subst h1
      exact Or.inl ⟨hl, h2.symm, h3.symm, h4.symm⟩
    · injection he with h1 h2 h3 h4
      subst h1
      exact Or.inr (Or.inl ⟨hl, h2.symm, h3.symm, h4.symm⟩)
    · cases he
    · injection he with h1 h2 h3 h4
      subst h1
      exact Or.inr (Or.inr ⟨hl, h2.symm, h3.symm, h4.symm⟩)
    · cases he
  · rintro (⟨hl, rfl, rfl, rfl⟩ | ⟨hl, rfl, rfl, rfl⟩ | ⟨hl, rfl, rfl, rfl⟩)
    · exact Or.inl (Or.inl (Or.inl (Or.inl (Or.inr ⟨leg, hl, rfl⟩))))
    · exact Or.inl (Or.inl (Or.inl (Or.inr ⟨leg, hl, rfl⟩)))
    · exact Or.inl (Or.inr ⟨leg, hl, rfl⟩)

/-- With six different legs, no `leg_a` leg is a `leg_b` leg. -/
theorem select_legs_disjoint (cfg : Config) (hcfg : cfg.distinctLegs) (j leg : Nat)
    (ha : leg ∈ (select_legs cfg j).1) : leg ∉ (select_legs cfg j).2 := by
  have hAB : (cfg.setA ++ cfg.setB).Nodup := hcfg
  have hdisj : cfg.setA.Disjoint cfg.setB := (List.nodup_append.mp hAB).2.2
  rcases select_legs_cases cfg j with hs | hs
  · rw [hs] at ha ⊢
    exact fun hb => hdisj ha hb
  · rw [hs] at ha ⊢
    exact fun hb => hdisj hb ha

theorem absoluteCalls_append (s t : List Cmd) :
    absoluteCalls (s ++ t) = absoluteCalls s ++ absoluteCalls t := by
  induction s with
  | nil => rfl
  | cons c s ih => cases c <;> simp [absoluteCalls, ih]

theorem absoluteCalls_map_relative (a : List Nat) (x y z : ℚ) :
    absoluteCalls (a.map (fun leg => Cmd.relative leg x y z)) = [] := by
  induction a with
  | nil => rfl
  | cons l a ih => simp [absoluteCalls, ih]

theorem absoluteCalls_map_absolute (a : List Nat) (x z : ℚ) (f : Nat → ℚ) :
    absoluteCalls (a.map (fun leg => Cmd.absolute leg x (f leg) z)) =
      a.map (fun leg => (leg, x, f leg, z)) := by
  induction a with
  | nil => rfl
  | cons l a ih => simp [absoluteCalls, ih]

/-- The bit test of the code is the parity of the leg identifier. -/
theorem relevant_direction_eq_side_magnitude (r : Resolved) (leg : Nat) :
    relevant_direction r leg = side_magnitude r leg := by
  unfold relevant_direction side_magnitude
  rw [Nat.and_one_is_mod]

/-- The multiplier depends on the absolute value of its argument only. -/
theorem get_delay_multiplier_abs (x : ℚ) :
    get_delay_multiplier |x| = get_delay_multiplier x := by
  unfold get_delay_multiplier
  rw [abs_abs]

/-- The tie command `0.5, 0.5` falls through to the final `else`, although it
is not below both cutoffs. -/
theorem resolve_tie_half :
    ¬ (|(0.5 : ℚ)| < 0.2 ∧ |(0.5 : ℚ)| < 0.2) ∧ resolve 0.5 0.5 = none := by
  refine ⟨fun h => ?_, ?_⟩
  · have h1 := h.1
    norm_num [abs_lt] at h1
  · exact (resolve_eq_none_iff _ _).mpr
      (Or.inr ⟨by norm_num [le_abs], by norm_num [le_abs], rfl⟩)

/-! ## Pure translation and pure rotation -/

/-- C1: pure translation.  For every velocity `v` with `|v| ≥ 0.2` and every
direction `d` with `|d| < 0.2`, the branch cascade of `gait_step` assigns
`left_direction = right_direction = v` and
`delay_multiplier = get_delay_multiplier v`, and the call issues the step
calls for exactly these values. -/
theorem C1_pure_translation (v d : ℚ) (hv : |v| ≥ 0.2) (hd : |d| < 0.2) :
    resolve v d = some { left_direction := v, right_direction := v,
                         delay_multiplier := get_delay_multiplier v } ∧
    ∀ (cfg : Config) (i : Nat),
      (gait_step cfg i v d).2 =
        step_commands cfg { left_direction := v, right_direction := v,
                            delay_multiplier := get_delay_multiplier v }
          (select_legs cfg ((i ^^^ 0x01) % 256)).1
          (select_legs cfg ((i ^^^ 0x01) % 256)).2 := by
  have h : resolve v d = some ⟨v, v, get_delay_multiplier v⟩ := by
    unfold resolve PRIMARY_CUTOFF SECONDARY_CUTOFF
    rw [if_pos ⟨hv, hd⟩]
  exact ⟨h, fun cfg i => gait_step_snd_of_some cfg i v d _ h⟩

/-- C1 at the command `0.5, 0.1`. -/
theorem C1_pure_translation_witness :
    |(0.5 : ℚ)| ≥ 0.2 ∧ |(0.1 : ℚ)| < 0.2 ∧
    resolve 0.5 0.1 = some { left_direction := 0.5, right_direction := 0.5,
                             delay_multiplier := get_delay_multiplier 0.5 } :=
  ⟨by norm_num [le_abs], by norm_num [abs_lt],
   (C1_pure_translation 0.5 0.1 (by norm_num [le_abs]) (by norm_num [abs_lt])).1⟩

/-- C2: pure rotation.  For every direction `d` with `|d| ≥ 0.2` and every
velocity `v` with `|v| < 0.2` (in particular `v = 0`), the branch cascade of
`gait_step` assigns `right_direction = -d`, `left_direction = d` and
`delay_multiplier = get_delay_multiplier d`, and the call issues the step
calls for exactly these values. -/
theorem C2_pure_rotation (v d : ℚ) (hd : |d| ≥ 0.2) (hv : |v| < 0.2) :
    resolve v d = some { left_direction := d, right_direction := -d,
                         delay_multiplier := get_delay_multiplier d } ∧
    resolve 0 d = some { left_direction := d, right_direction := -d,
                         delay_multiplier := get_delay_multiplier d } ∧
    ∀ (cfg : Config) (i : Nat),
      (gait_step cfg i v d).2 =
        step_commands cfg { left_direction := d, right_direction := -d,
                            delay_multiplier := get_delay_multiplier d }
          (select_legs cfg ((i ^^^ 0x01) % 256)).1
          (select_legs cfg ((i ^^^ 0x01) % 256)).2 := by
  have key : ∀ w : ℚ, |w| < 0.2 →
      resolve w d = some ⟨d, -d, get_delay_multiplier d⟩ := by
    intro w hw
    have hw' : ¬ |w| ≥ 0.2 := not_le.mpr hw
    unfold resolve PRIMARY_CUTOFF SECONDARY_CUTOFF
    rw [if_neg (fun h => hw' h.1), if_neg (fun h => hw' h.1),
      if_neg (fun h => hw' h.2.1), if_pos ⟨hd, hw⟩]
    simp
  refine ⟨key v hv, key 0 (by norm_num), fun cfg i => ?_⟩
  exact gait_step_snd_of_some cfg i v d _ (key v hv)

/-- C2 at the command `0, -0.6`. -/
theorem C2_pure_rotation_witness :
    |(-0.6 : ℚ)| ≥ 0.2 ∧ |(0 : ℚ)| < 0.2 ∧
    resolve 0 (-0.6) = some { left_direction := -0.6, right_direction := -(-0.6),
                              delay_multiplier := get_delay_multiplier (-0.6) } :=
  ⟨by norm_num [le_abs], by norm_num,
   (C2_pure_rotation 0 (-0.6) (by norm_num [le_abs]) (by norm_num)).1⟩

/-! ## The degenerate command -/

/-- C3: a degenerate command issues nothing.  For every command with
`|velocity| < 0.2` and `|direction| < 0.2` (in particular `0, 0`), `gait_step`
takes the final `else` and its command trace is empty: no relative call, no
absolute call, no delay call, and a total delay of `0`. -/
theorem C3_degenerate_issues_nothing (cfg : Config) (i : Nat) (v d : ℚ)
    (hv : |v| < 0.2) (hd : |d| < 0.2) :
    resolve v d = none ∧
    (gait_step cfg i v d).2 = [] ∧
    (relativeLegs (gait_step cfg i v d).2).length = 0 ∧
    (absoluteLegs (gait_step cfg i v d).2).length = 0 ∧
    (delays (gait_step cfg i v d).2).length = 0 ∧
    (delays (gait_step cfg i v d).2).sum = 0 ∧
    (gait_step cfg i 0 0).2 = [] := by
  have h : resolve v d = none := (resolve_eq_none_iff v d).mpr (Or.inl ⟨hv, hd⟩)
  have h0 : resolve 0 0 = none :=
    (resolve_eq_none_iff 0 0).mpr (Or.inl ⟨by norm_num, by norm_num⟩)
  have ht := gait_step_snd_of_none cfg i v d h
  refine ⟨h, ht, ?_, ?_, ?_, ?_, gait_step_snd_of_none cfg i 0 0 h0⟩ <;>
    rw [ht] <;> rfl

/-- C3 at the command `0.1, -0.15`. -/
theorem C3_degenerate_issues_nothing_witness :
    |(0.1 : ℚ)| < 0.2 ∧ |(-0.15 : ℚ)| < 0.2 ∧
    (gait_step sampleConfig 0 0.1 (-0.15)).2 = [] :=
  ⟨by norm_num [abs_lt], by norm_num [abs_lt],
   (C3_degenerate_issues_nothing sampleConfig 0 0.1 (-0.15)
      (by norm_num [abs_lt]) (by norm_num [abs_lt])).2.1⟩

/-- C4 (as stated, refuted): the command `0, 0` takes the final `else`, yet the
call changes the alternation bit from `0` to `1`; and after a moving call has
left the bit at `1`, a no-motion call before the next moving call changes
which legs that moving call lifts. -/
theorem C4_counterexample :
    resolve 0 0 = none ∧
    (gait_step sampleConfig 0 0 0).1 ≠ 0 ∧
    relativeLegs (gait_step sampleConfig (gait_step sampleConfig 1 0 0).1 0.5 0).2
      ≠ relativeLegs (gait_step sampleConfig 1 0.5 0).2 := by
  have h0 : resolve 0 0 = none :=
    (resolve_eq_none_iff 0 0).mpr (Or.inl ⟨by norm_num, by norm_num⟩)
  have hm : resolve 0.5 0 ≠ none := by
    intro h
    rcases (resolve_eq_none_iff _ _).mp h with ⟨h1, _⟩ | ⟨_, h2, _⟩
    · norm_num [abs_lt] at h1
    · norm_num at h2
  refine ⟨h0, ?_, ?_⟩
  · rw [gait_step_fst]; decide
  · rw [relativeLegs_gait_step _ _ _ _ hm, relativeLegs_gait_step _ _ _ _ hm,
      gait_step_fst]
    decide

/-- C4 (amended): for every command that takes the final `else`, `gait_step`
issues no call but still flips the alternation bit, as on every call: the bit
after the call is `i xor 1`, which differs from `i`.  Hence a no-motion call
between two moving calls makes the second moving call lift the same legs as
the first. -/
theorem C4_degenerate_flips_bit (cfg : Config) (i : Nat) (v d : ℚ)
    (hi : i < 2) (h : resolve v d = none) :
    gait_step cfg i v d = ((i ^^^ 0x01) % 256, []) ∧
    (gait_step cfg i v d).1 ≠ i ∧
    ∀ v1 d1 v2 d2 : ℚ, resolve v1 d1 ≠ none → resolve v2 d2 ≠ none →
      relativeLegs
          (gait_step cfg (gait_step cfg (gait_step cfg i v1 d1).1 v d).1 v2 d2).2
        = relativeLegs (gait_step cfg i v1 d1).2 := by
  refine ⟨?_, ?_, ?_⟩
  · exact Prod.ext (gait_step_fst cfg i v d) (gait_step_snd_of_none cfg i v d h)
  · rw [gait_step_fst]; exact flip_ne i hi
  · intro v1 d1 v2 d2 h1 h2
    rw [relativeLegs_gait_step _ _ _ _ h2, relativeLegs_gait_step _ _ _ _ h1,
      gait_step_fst, gait_step_fst, flip_flip _ (flip_lt i hi)]

/-- C4 (amended) at the command `0, 0` with the bit at `0`. -/
theorem C4_degenerate_flips_bit_witness :
    (0 : Nat) < 2 ∧ resolve 0 0 = none ∧
    gait_step sampleConfig 0 0 0 = ((0 ^^^ 0x01) % 256, []) :=
  ⟨by decide,
   (resolve_eq_none_iff 0 0).mpr (Or.inl ⟨by norm_num, by norm_num⟩),
   (C4_degenerate_flips_bit sampleConfig 0 0 0 (by decide)
      ((resolve_eq_none_iff 0 0).mpr (Or.inl ⟨by norm_num, by norm_num⟩))).1⟩

/-- C5 (the code at the failing input): the command `0.5, 0.5` has both
components at or above the cutoff `0.2`, yet the branch cascade falls through
to the final `else` and the call issues nothing. -/
theorem C5_tie_falls_through :
    |(0.5 : ℚ)| ≥ 0.2 ∧ resolve 0.5 0.5 = none ∧
    (gait_step sampleConfig 0 0.5 0.5).2 = [] := by
  have h : resolve 0.5 0.5 = none :=
    (resolve_eq_none_iff _ _).mpr
      (Or.inr ⟨by norm_num [le_abs], by norm_num [le_abs], rfl⟩)
  exact ⟨by norm_num [le_abs], h, gait_step_snd_of_none _ _ _ _ h⟩

/-! ## The delay multiplier -/

/-- C6: `get_delay_multiplier` is the ordered, boundary-inclusive table on
`|m|`: it returns `1.0` iff `|m| ≥ 0.8`, `1.3` iff `0.5 ≤ |m| < 0.8`, `1.5` iff
`0.3 ≤ |m| < 0.5` and `1.8` iff `|m| < 0.3`; in particular the values at `0.8`,
`0.79999`, `0.5`, `0.3` and `0.0` are `1.0`, `1.3`, `1.3`, `1.5` and `1.8`, and
the result does not depend on the sign of `m`. -/
theorem C6_delay_multiplier_table (m : ℚ) :
    (get_delay_multiplier m = 1.0 ↔ |m| ≥ 0.8) ∧
    (get_delay_multiplier m = 1.3 ↔ 0.5 ≤ |m| ∧ |m| < 0.8) ∧
    (get_delay_multiplier m = 1.5 ↔ 0.3 ≤ |m| ∧ |m| < 0.5) ∧
    (get_delay_multiplier m = 1.8 ↔ |m| < 0.3) ∧
    get_delay_multiplier 0.8 = 1.0 ∧
    get_delay_multiplier 0.79999 = 1.3 ∧
    get_delay_multiplier 0.5 = 1.3 ∧
    get_delay_multiplier 0.3 = 1.5 ∧
    get_delay_multiplier 0.0 = 1.8 ∧
    get_delay_multiplier (-m) = get_delay_multiplier m := by
  refine ⟨?_, ?_, ?_, ?_, ?_, ?_, ?_, ?_, ?_, ?_⟩
  · unfold get_delay_multiplier
    split_ifs with h1 h2 h3
    · exact ⟨fun _ => h1, fun _ => by norm_num⟩
    · exact ⟨fun h => by norm_num at h, fun h => absurd h h1⟩
    · exact ⟨fun h => by norm_num at h, fun h => absurd h h1⟩
    · exact ⟨fun h => by norm_num at h, fun h => absurd h h1⟩
  · unfold get_delay_multiplier
    split_ifs with h1 h2 h3
    · exact ⟨fun h => by norm_num at h, fun h => absurd h1 (not_le.mpr h.2)⟩
    · exact ⟨fun _ => ⟨h2, not_le.mp h1⟩, fun _ => rfl⟩
    · exact ⟨fun h => by norm_num at h, fun h => absurd h.1 h2⟩
    · exact ⟨fun h => by norm_num at h, fun h => absurd h.1 h2⟩
  · unfold get_delay_multiplier
    split_ifs with h1 h2 h3
    · exact ⟨fun h => by norm_num at h, fun h => by exfalso; linarith [h.2]⟩
    · exact ⟨fun h => by norm_num at h, fun h => absurd h2 (not_le.mpr h.2)⟩
    · exact ⟨fun _ => ⟨h3, not_le.mp h2⟩, fun _ => rfl⟩
    · exact ⟨fun h => by norm_num at h, fun h => absurd h.1 h3⟩
  · unfold get_delay_multiplier
    split_ifs with h1 h2 h3
    · exact ⟨fun h => by norm_num at h, fun h => by exfalso; linarith⟩
    · exact ⟨fun h => by norm_num at h, fun h => by exfalso; linarith⟩
    · exact ⟨fun h => by norm_num at h, fun h => absurd h3 (not_le.mpr h)⟩
    · exact ⟨fun _ => not_le.mp h3, fun _ => rfl⟩
  · norm_num [get_delay_multiplier, le_abs]
  · norm_num [get_delay_multiplier, le_abs]
  · norm_num [get_delay_multiplier, le_abs]
  · norm_num [get_delay_multiplier, le_abs]
  · norm_num [get_delay_multiplier]
  · unfold get_delay_multiplier
    rw [abs_neg]

/-! ## Alternation of the tripod sets -/

/-- Alternation on commands that issue motion.  For either value of the
alternation bit, six different leg identifiers and every pair of commands that
do not fall through to the final `else`, two consecutive calls lift
complementary triples: one call lifts Set A and moves Set B without lifting,
the other lifts Set B and moves Set A without lifting; the two lifted triples
are disjoint and together are all six legs, each exactly once.  Tie commands
`|velocity| = |direction| ≥ 0.2` are not covered: they issue nothing. -/
theorem alternation_of_motion_commands (cfg : Config) (i : Nat) (v1 d1 v2 d2 : ℚ)
    (hi : i < 2) (hcfg : cfg.distinctLegs)
    (h1 : resolve v1 d1 ≠ none) (h2 : resolve v2 d2 ≠ none) :
    ((relativeLegs (gait_step cfg i v1 d1).2 = cfg.setA ∧
        stanceLegs (gait_step cfg i v1 d1).2 = cfg.setB ∧
        relativeLegs (gait_step cfg (gait_step cfg i v1 d1).1 v2 d2).2 = cfg.setB ∧
        stanceLegs (gait_step cfg (gait_step cfg i v1 d1).1 v2 d2).2 = cfg.setA) ∨
     (relativeLegs (gait_step cfg i v1 d1).2 = cfg.setB ∧
        stanceLegs (gait_step cfg i v1 d1).2 = cfg.setA ∧
        relativeLegs (gait_step cfg (gait_step cfg i v1 d1).1 v2 d2).2 = cfg.setA ∧
        stanceLegs (gait_step cfg (gait_step cfg i v1 d1).1 v2 d2).2 = cfg.setB)) ∧
    (relativeLegs (gait_step cfg i v1 d1).2).Disjoint
      (relativeLegs (gait_step cfg (gait_step cfg i v1 d1).1 v2 d2).2) ∧
    (relativeLegs (gait_step cfg i v1 d1).2 ++
      relativeLegs (gait_step cfg (gait_step cfg i v1 d1).1 v2 d2).2).Nodup ∧
    (relativeLegs (gait_step cfg i v1 d1).2 ++
      relativeLegs (gait_step cfg (gait_step cfg i v1 d1).1 v2 d2).2).Perm cfg.allLegs := by
  obtain ⟨r1, hr1⟩ := Option.ne_none_iff_exists'.mp h1
  obtain ⟨r2, hr2⟩ := Option.ne_none_iff_exists'.mp h2
  have hAB : [cfg.FRONT_LEFT, cfg.MIDDLE_RIGHT, cfg.REAR_LEFT,
      cfg.FRONT_RIGHT, cfg.MIDDLE_LEFT, cfg.REAR_RIGHT].Nodup := hcfg
  have hBA : [cfg.FRONT_RIGHT, cfg.MIDDLE_LEFT, cfg.REAR_RIGHT,
      cfg.FRONT_LEFT, cfg.MIDDLE_RIGHT, cfg.REAR_LEFT].Nodup := by
    have hp : List.Perm ([cfg.FRONT_LEFT, cfg.MIDDLE_RIGHT, cfg.REAR_LEFT] ++
        [cfg.FRONT_RIGHT, cfg.MIDDLE_LEFT, cfg.REAR_RIGHT])
        ([cfg.FRONT_RIGHT, cfg.MIDDLE_LEFT, cfg.REAR_RIGHT] ++
        [cfg.FRONT_LEFT, cfg.MIDDLE_RIGHT, cfg.REAR_LEFT]) := List.perm_append_comm
    exact hp.nodup_iff.mp hAB
  have hdisj : cfg.setA.Disjoint cfg.setB := by
    have : (cfg.setA ++ cfg.setB).Nodup := hAB
    exact (List.nodup_append.mp this).2.2
  have hpermAB : (cfg.setA ++ cfg.setB).Perm cfg.allLegs := by
    unfold Config.setA Config.setB Config.allLegs
    exact List.Perm.cons _
      (List.Perm.append_right [cfg.REAR_RIGHT]
        (List.perm_append_comm :
          List.Perm ([cfg.MIDDLE_RIGHT, cfg.REAR_LEFT] ++ [cfg.FRONT_RIGHT, cfg.MIDDLE_LEFT])
            ([cfg.FRONT_RIGHT, cfg.MIDDLE_LEFT] ++ [cfg.MIDDLE_RIGHT, cfg.REAR_LEFT])))
  have hpermBA : (cfg.setB ++ cfg.setA).Perm cfg.allLegs :=
    List.perm_append_comm.trans hpermAB
  rw [gait_step_fst, gait_step_snd_of_some cfg i v1 d1 r1 hr1,
    gait_step_snd_of_some cfg _ v2 d2 r2 hr2]
  have hi' : i = 0 ∨ i = 1 := by omega
  rcases hi' with rfl | rfl
  · have e1 : (0 ^^^ 0x01) % 256 = 1 := by decide
    have e2 : (1 ^^^ 0x01) % 256 = 0 := by decide
    rw [e1, e2, select_legs_one, select_legs_zero]
    simp only [relativeLegs_step_commands]
    refine ⟨Or.inr ⟨trivial, stanceLegs_step_commands cfg r1 _ _ _ _ _ _ hBA, trivial,
      stanceLegs_step_commands cfg r2 _ _ _ _ _ _ hAB⟩, hdisj.symm, hBA, hpermBA⟩
  · have e1 : (0 ^^^ 0x01) % 256 = 1 := by decide
    have e2 : (1 ^^^ 0x01) % 256 = 0 := by decide
    rw [e2, e1, select_legs_zero, select_legs_one]
    simp only [relativeLegs_step_commands]
    refine ⟨Or.inl ⟨trivial, stanceLegs_step_commands cfg r1 _ _ _ _ _ _ hAB, trivial,
      stanceLegs_step_commands cfg r2 _ _ _ _ _ _ hBA⟩, hdisj, hAB, hpermAB⟩

/-- Alternation at two calls with the command `0.5, 0`, starting from the bit
at `0`. -/
theorem alternation_of_motion_commands_example :
    (0 : Nat) < 2 ∧ sampleConfig.distinctLegs ∧ resolve 0.5 0 ≠ none ∧
    (relativeLegs (gait_step sampleConfig 0 0.5 0).2).Disjoint
      (relativeLegs
        (gait_step sampleConfig (gait_step sampleConfig 0 0.5 0).1 0.5 0).2) :=
  ⟨by decide, by decide, resolve_half_zero_ne_none,
   (alternation_of_motion_commands sampleConfig 0 0.5 0 0.5 0 (by decide) (by decide)
      resolve_half_zero_ne_none resolve_half_zero_ne_none).2.1⟩

/-- C7 (the code at the failing input): the command `0.5, 0.5` is not below
both cutoffs, yet two consecutive calls with it, starting from the bit at `0`,
lift no leg at all and move no leg: neither call lifts Set A or Set B, and the
legs lifted over the two calls are not the six legs. -/
theorem C7_tie_calls_lift_nothing :
    ¬ (|(0.5 : ℚ)| < 0.2 ∧ |(0.5 : ℚ)| < 0.2) ∧
    relativeLegs (gait_step sampleConfig 0 0.5 0.5).2 = [] ∧
    stanceLegs (gait_step sampleConfig 0 0.5 0.5).2 = [] ∧
    relativeLegs
      (gait_step sampleConfig (gait_step sampleConfig 0 0.5 0.5).1 0.5 0.5).2 = [] ∧
    stanceLegs
      (gait_step sampleConfig (gait_step sampleConfig 0 0.5 0.5).1 0.5 0.5).2 = [] ∧
    ¬ (relativeLegs (gait_step sampleConfig 0 0.5 0.5).2 ++
        relativeLegs
          (gait_step sampleConfig (gait_step sampleConfig 0 0.5 0.5).1 0.5 0.5).2).Perm
      sampleConfig.allLegs := by
  have h := resolve_tie_half.2
  have t1 : (gait_step sampleConfig 0 0.5 0.5).2 = [] :=
    gait_step_snd_of_none _ _ _ _ h
  have t2 : (gait_step sampleConfig (gait_step sampleConfig 0 0.5 0.5).1 0.5 0.5).2 = [] :=
    gait_step_snd_of_none _ _ _ _ h
  rw [t1, t2]
  refine ⟨resolve_tie_half.1, rfl, rfl, rfl, rfl, ?_⟩
  intro hp
  have hl := hp.length_eq
  revert hl
  decide

/-! ## The blends -/

/-- C8 (the code at the failing input): the velocity-dominant command
`1, -0.6` resolves to `left_direction = -0.2`, `right_direction = 1`, whose
difference exceeds `1`: on the `direction < 0` branch `min 1 (direction * 2)`
is `direction * 2`, so nothing is clamped.  Likewise the velocity-dominant
command `11, -10` resolves to `left_direction = 11 - 20 = -9`, an adjustment
of `-20`, not one clamped to a full-magnitude swing. -/
theorem C8_negative_branch_unclamped :
    (|(1 : ℚ)| ≥ 0.2 ∧ |(-0.6 : ℚ)| ≥ 0.2 ∧ |(1 : ℚ)| > |(-0.6 : ℚ)|) ∧
    resolve 1 (-0.6) = some ⟨-0.2, 1, 1⟩ ∧
    ¬ (|(-0.2 : ℚ) - 1| ≤ 1) ∧
    (|(11 : ℚ)| ≥ 0.2 ∧ |(-10 : ℚ)| ≥ 0.2 ∧ |(11 : ℚ)| > |(-10 : ℚ)|) ∧
    |(11 : ℚ)| > 10 ∧
    resolve 11 (-10) = some ⟨-9, 11, 1⟩ ∧
    (-9 : ℚ) ≠ 11 + 1 := by
  have a1 : |(1 : ℚ)| ≥ 0.2 := by norm_num
  have a2 : |(-0.6 : ℚ)| ≥ 0.2 := by norm_num [le_abs]
  have a3 : |(1 : ℚ)| > |(-0.6 : ℚ)| := by norm_num [abs_lt]
  have b1 : |(11 : ℚ)| ≥ 0.2 := by norm_num
  have b2 : |(-10 : ℚ)| ≥ 0.2 := by norm_num
  have b3 : |(11 : ℚ)| > |(-10 : ℚ)| := by norm_num
  refine ⟨⟨a1, a2, a3⟩, ?_, ?_, ⟨b1, b2, b3⟩, ?_, ?_, ?_⟩
  · rw [resolve_velocity_dominant_neg 1 (-0.6) a1 a2 a3 (by norm_num)]
    norm_num [get_delay_multiplier]
  · norm_num [abs_le]
  · norm_num
  · rw [resolve_velocity_dominant_neg 11 (-10) b1 b2 b3 (by norm_num)]
    norm_num [get_delay_multiplier]
  · norm_num

/-- C9: velocity-dominant blend.  For every command with `|velocity| ≥ 0.2`,
`|direction| ≥ 0.2` and `|velocity| > |direction|`, the branch cascade assigns
`right_direction = velocity` and
`left_direction = velocity + min 1 (2 * direction)` when `direction < 0`, and
`left_direction = velocity` and
`right_direction = velocity - min 1 (2 * direction)` when `direction ≥ 0`; the
delay multiplier is `get_delay_multiplier velocity` in both sub-cases. -/
theorem C9_velocity_dominant_blend (v d : ℚ)
    (hv : |v| ≥ 0.2) (hd : |d| ≥ 0.2) (hvd : |v| > |d|) :
    (d < 0 → resolve v d =
      some { right_direction := v, left_direction := v + min 1 (2 * d),
             delay_multiplier := get_delay_multiplier v }) ∧
    (d ≥ 0 → resolve v d =
      some { left_direction := v, right_direction := v - min 1 (2 * d),
             delay_multiplier := get_delay_multiplier v }) := by
  constructor
  · intro hneg
    rw [resolve_velocity_dominant_neg v d hv hd hvd hneg, mul_comm d 2]
  · intro hpos
    rw [resolve_velocity_dominant_nonneg v d hv hd hvd (not_lt.mpr hpos), mul_comm d 2]

/-- C9 at the command `0.9, -0.3`. -/
theorem C9_velocity_dominant_blend_witness :
    |(0.9 : ℚ)| ≥ 0.2 ∧ |(-0.3 : ℚ)| ≥ 0.2 ∧ |(0.9 : ℚ)| > |(-0.3 : ℚ)| ∧
    ((-0.3 : ℚ) < 0 → resolve 0.9 (-0.3) =
      some { right_direction := 0.9, left_direction := 0.9 + min 1 (2 * (-0.3)),
             delay_multiplier := get_delay_multiplier 0.9 }) :=
  ⟨by norm_num [le_abs], by norm_num [le_abs], by norm_num [abs_lt, lt_abs],
   (C9_velocity_dominant_blend 0.9 (-0.3) (by norm_num [le_abs]) (by norm_num [le_abs])
      (by norm_num [abs_lt, lt_abs])).1⟩

/-- C10: direction-dominant blend.  For every command with `|direction| ≥ 0.2`,
`|velocity| ≥ 0.2` and `|direction| > |velocity|`, the branch cascade assigns
`left_direction = direction` and `right_direction = -direction + velocity` when
`velocity < 0`, and `left_direction = direction` and
`right_direction = -direction - velocity` otherwise; the delay multiplier is
`get_delay_multiplier direction`. -/
theorem C10_direction_dominant_blend (v d : ℚ)
    (hd : |d| ≥ 0.2) (hv : |v| ≥ 0.2) (hdv : |d| > |v|) :
    (v < 0 → resolve v d =
      some { left_direction := d, right_direction := -d + v,
             delay_multiplier := get_delay_multiplier d }) ∧
    (¬ v < 0 → resolve v d =
      some { left_direction := d, right_direction := -d - v,
             delay_multiplier := get_delay_multiplier d }) := by
  constructor
  · intro hneg
    rw [resolve_direction_dominant_neg v d hd hv hdv hneg, mul_neg_one]
  · intro hpos
    rw [resolve_direction_dominant_nonneg v d hd hv hdv hpos, mul_neg_one]

/-- C10 at the command `-0.3, 0.9`. -/
theorem C10_direction_dominant_blend_witness :
    |(0.9 : ℚ)| ≥ 0.2 ∧ |(-0.3 : ℚ)| ≥ 0.2 ∧ |(0.9 : ℚ)| > |(-0.3 : ℚ)| ∧
    ((-0.3 : ℚ) < 0 → resolve (-0.3) 0.9 =
      some { left_direction := 0.9, right_direction := -0.9 + -0.3,
             delay_multiplier := get_delay_multiplier 0.9 }) :=
  ⟨by norm_num [le_abs], by norm_num [le_abs], by norm_num [abs_lt, lt_abs],
   (C10_direction_dominant_blend (-0.3) 0.9 (by norm_num [le_abs]) (by norm_num [le_abs])
      (by norm_num [abs_lt, lt_abs])).1⟩

/-! ## The calls of a step -/

/-- Step trace shape and timing on commands that issue motion.  For every
command that does not fall through to the final `else`, with multiplier `m`,
the call emits exactly, in order: three
relative lift calls (one per `leg_a` leg, tibia delta `TIBIA_STEP`), a delay of
`2 * 80 * m`, six absolute calls (the three `leg_a` legs, then the three `leg_b`
legs), a delay of `2 * 80 * m`, three absolute calls (the `leg_a` legs), and a
delay of `1 * 80 * m`; the total delay is `5 * 80 * m`.  In particular
`gait_step(0.5, 0)` issues 3 relative calls, 9 absolute calls and a total delay
of `520`.  Tie commands `|velocity| = |direction| ≥ 0.2` are not covered: they
issue nothing. -/
theorem step_trace_of_motion_command (cfg : Config) (i : Nat) (v d : ℚ) (r : Resolved)
    (h : resolve v d = some r) :
    (∃ a0 a1 a2 b0 b1 b2 : Nat,
      select_legs cfg ((i ^^^ 0x01) % 256) = ([a0, a1, a2], [b0, b1, b2]) ∧
      (gait_step cfg i v d).2 =
        [ Cmd.relative a0 0 0 cfg.TIBIA_STEP,
          Cmd.relative a1 0 0 cfg.TIBIA_STEP,
          Cmd.relative a2 0 0 cfg.TIBIA_STEP,
          Cmd.delay (2 * 80 * r.delay_multiplier),
          Cmd.absolute a0 0 (swing_coxa cfg r a0) cfg.TIBIA_RAISED,
          Cmd.absolute a1 0 (swing_coxa cfg r a1) cfg.TIBIA_RAISED,
          Cmd.absolute a2 0 (swing_coxa cfg r a2) cfg.TIBIA_RAISED,
          Cmd.absolute b0 0 (cfg.COXA_FORWARD * relevant_direction r b0) cfg.TIBIA_LOWERED,
          Cmd.absolute b1 0 (cfg.COXA_FORWARD * relevant_direction r b1) cfg.TIBIA_LOWERED,
          Cmd.absolute b2 0 (cfg.COXA_FORWARD * relevant_direction r b2) cfg.TIBIA_LOWERED,
          Cmd.delay (2 * 80 * r.delay_multiplier),
          Cmd.absolute a0 0 (swing_coxa cfg r a0) cfg.TIBIA_LOWERED,
          Cmd.absolute a1 0 (swing_coxa cfg r a1) cfg.TIBIA_LOWERED,
          Cmd.absolute a2 0 (swing_coxa cfg r a2) cfg.TIBIA_LOWERED,
          Cmd.delay (1 * 80 * r.delay_multiplier) ]) ∧
    (gait_step cfg i v d).2.length = 15 ∧
    (relativeLegs (gait_step cfg i v d).2).length = 3 ∧
    (absoluteLegs (gait_step cfg i v d).2).length = 9 ∧
    delays (gait_step cfg i v d).2 =
      [2 * 80 * r.delay_multiplier, 2 * 80 * r.delay_multiplier,
       1 * 80 * r.delay_multiplier] ∧
    (delays (gait_step cfg i v d).2).sum = 5 * 80 * r.delay_multiplier ∧
    (relativeLegs (gait_step cfg i 0.5 0).2).length = 3 ∧
    (absoluteLegs (gait_step cfg i 0.5 0).2).length = 9 ∧
    (delays (gait_step cfg i 0.5 0).2).sum = 520 := by
  have e1 : DELAY * 2 * r.delay_multiplier = 2 * 80 * r.delay_multiplier := by
    unfold DELAY; ring
  have e2 : DELAY * 1 * r.delay_multiplier = 1 * 80 * r.delay_multiplier := by
    unfold DELAY; ring
  have hlen : ∀ j : Nat, (select_legs cfg j).1.length = 3 ∧ (select_legs cfg j).2.length = 3 := by
    intro j
    rcases select_legs_cases cfg j with hs | hs <;> rw [hs] <;> exact ⟨rfl, rfl⟩
  rw [gait_step_snd_of_some cfg i v d r h,
    gait_step_snd_of_some cfg i 0.5 0 _ resolve_half_zero]
  refine ⟨?_, ?_, ?_, ?_, ?_, ?_, ?_, ?_, ?_⟩
  · rcases select_legs_cases cfg ((i ^^^ 0x01) % 256) with hs | hs
    · refine ⟨_, _, _, _, _, _, hs, ?_⟩
      rw [hs]
      show step_commands cfg r [_, _, _] [_, _, _] = _
      rw [step_commands_triples, e1, e2]
    · refine ⟨_, _, _, _, _, _, hs, ?_⟩
      rw [hs]
      show step_commands cfg r [_, _, _] [_, _, _] = _
      rw [step_commands_triples, e1, e2]
  · rcases select_legs_cases cfg ((i ^^^ 0x01) % 256) with hs | hs <;> rw [hs] <;>
      simp [step_commands, Config.setA, Config.setB]
  · rw [relativeLegs_step_commands]; exact (hlen _).1
  · rw [absoluteLegs_step_commands]
    simp [(hlen ((i ^^^ 0x01) % 256)).1, (hlen ((i ^^^ 0x01) % 256)).2]
  · rw [delays_step_commands, e1, e2]
  · rw [delays_sum_step_commands]; ring
  · rw [relativeLegs_step_commands]; exact (hlen _).1
  · rw [absoluteLegs_step_commands]
    simp [(hlen ((i ^^^ 0x01) % 256)).1, (hlen ((i ^^^ 0x01) % 256)).2]
  · rw [delays_sum_step_commands]; norm_num

/-- The step trace at the command `0.5, 0` with the sample configuration. -/
theorem step_trace_of_motion_command_example :
    resolve 0.5 0 = some ⟨0.5, 0.5, 1.3⟩ ∧
    (delays (gait_step sampleConfig 0 0.5 0).2).sum = 5 * 80 * 1.3 :=
  ⟨resolve_half_zero,
   (step_trace_of_motion_command sampleConfig 0 0.5 0 ⟨0.5, 0.5, 1.3⟩
      resolve_half_zero).2.2.2.2.2.1⟩

/-- C11 (the code at the failing input): the command `0.5, 0.5` is not below
both cutoffs, yet the call emits no call at all: no relative call, no absolute
call, no delay, and a total delay of `0`, where three relative calls, nine
absolute calls and a total delay of `5 * 80 * get_delay_multiplier 0.5 = 520`
are expected. -/
theorem C11_tie_emits_nothing :
    ¬ (|(0.5 : ℚ)| < 0.2 ∧ |(0.5 : ℚ)| < 0.2) ∧
    (gait_step sampleConfig 0 0.5 0.5).2 = [] ∧
    (relativeLegs (gait_step sampleConfig 0 0.5 0.5).2).length = 0 ∧
    (absoluteLegs (gait_step sampleConfig 0 0.5 0.5).2).length = 0 ∧
    (delays (gait_step sampleConfig 0 0.5 0.5).2).length = 0 ∧
    (delays (gait_step sampleConfig 0 0.5 0.5).2).sum = 0 ∧
    5 * 80 * get_delay_multiplier 0.5 = 520 := by
  have t : (gait_step sampleConfig 0 0.5 0.5).2 = [] :=
    gait_step_snd_of_none _ _ _ _ resolve_tie_half.2
  rw [t]
  refine ⟨resolve_tie_half.1, rfl, rfl, rfl, rfl, rfl, ?_⟩
  norm_num [get_delay_multiplier, le_abs]

/-- C12: stance legs stay planted.  With six different leg identifiers, in the
command trace of every `gait_step` call, for any value of the alternation bit:
every relative call carries `TIBIA_STEP` and is addressed to a `leg_a` (active)
leg, never to a `leg_b` (stance) leg; every absolute call addressed to a stance
leg carries the tibia argument `TIBIA_LOWERED`; and every absolute call whose
tibia argument is not `TIBIA_LOWERED` carries `TIBIA_RAISED` and is addressed
to an active leg, never to a stance leg. -/
theorem C12_stance_legs_planted (cfg : Config) (i : Nat) (v d : ℚ)
    (hcfg : cfg.distinctLegs) :
    (∀ (leg : Nat) (x y z : ℚ), Cmd.relative leg x y z ∈ (gait_step cfg i v d).2 →
      z = cfg.TIBIA_STEP ∧
      leg ∈ (select_legs cfg ((i ^^^ 0x01) % 256)).1 ∧
      leg ∉ (select_legs cfg ((i ^^^ 0x01) % 256)).2) ∧
    (∀ (leg : Nat) (x y z : ℚ), Cmd.absolute leg x y z ∈ (gait_step cfg i v d).2 →
      leg ∈ (select_legs cfg ((i ^^^ 0x01) % 256)).2 → z = cfg.TIBIA_LOWERED) ∧
    (∀ (leg : Nat) (x y z : ℚ), Cmd.absolute leg x y z ∈ (gait_step cfg i v d).2 →
      z ≠ cfg.TIBIA_LOWERED →
      z = cfg.TIBIA_RAISED ∧
      leg ∈ (select_legs cfg ((i ^^^ 0x01) % 256)).1 ∧
      leg ∉ (select_legs cfg ((i ^^^ 0x01) % 256)).2) := by
  cases hr : resolve v d with
  | none =>
    rw [gait_step_snd_of_none cfg i v d hr]
    refine ⟨?_, ?_, ?_⟩ <;> intro leg x y z hmem <;> cases hmem
  | some r =>
    rw [gait_step_snd_of_some cfg i v d r hr]
    refine ⟨?_, ?_, ?_⟩
    · intro leg x y z hmem
      obtain ⟨hl, _, _, hz⟩ := (relative_mem_step_commands _ _ _ _ _ _ _ _).mp hmem
      exact ⟨hz, hl, select_legs_disjoint cfg hcfg _ leg hl⟩
    · intro leg x y z hmem hb
      rcases (absolute_mem_step_commands _ _ _ _ _ _ _ _).mp hmem with
        ⟨hl, _, _, _⟩ | ⟨_, _, _, hz⟩ | ⟨_, _, _, hz⟩
      · exact absurd hb (select_legs_disjoint cfg hcfg _ leg hl)
      · exact hz
      · exact hz
    · intro leg x y z hmem hz
      rcases (absolute_mem_step_commands _ _ _ _ _ _ _ _).mp hmem with
        ⟨hl, _, _, hz'⟩ | ⟨_, _, _, hz'⟩ | ⟨_, _, _, hz'⟩
      · exact ⟨hz', hl, select_legs_disjoint cfg hcfg _ leg hl⟩
      · exact absurd hz' hz
      · exact absurd hz' hz

/-- C12 with the sample configuration, at the command `0.5, 0` from the bit at
`0`: the absolute calls addressed to the stance legs carry `TIBIA_LOWERED`. -/
theorem C12_stance_legs_planted_witness :
    sampleConfig.distinctLegs ∧
    ∀ (leg : Nat) (x y z : ℚ),
      Cmd.absolute leg x y z ∈ (gait_step sampleConfig 0 0.5 0).2 →
      leg ∈ (select_legs sampleConfig ((0 ^^^ 0x01) % 256)).2 →
      z = sampleConfig.TIBIA_LOWERED :=
  ⟨by decide, (C12_stance_legs_planted sampleConfig 0 0.5 0 (by decide)).2.1⟩

/-! ## `gait_init` -/

/-- C13: `gait_init` emits a fixed trace and touches no gait state.  For Set A
(`FRONT_LEFT`, `MIDDLE_RIGHT`, `REAR_LEFT`) and then for Set B (`FRONT_RIGHT`,
`MIDDLE_LEFT`, `REAR_RIGHT`) it issues three relative lifts by `TIBIA_STEP`, a
delay of `160`, three absolute calls with `COXA_NEUTRAL` and `TIBIA_RAISED`, a
delay of `160`, three absolute calls with `COXA_NEUTRAL` and `TIBIA_LOWERED`,
and a delay of `80`: six delays totalling `800`; and it leaves the alternation
bit of `gait_step` as it was. -/
theorem C13_gait_init_trace (cfg : Config) :
    gait_init cfg =
      [ Cmd.relative cfg.FRONT_LEFT 0 0 cfg.TIBIA_STEP,
        Cmd.relative cfg.MIDDLE_RIGHT 0 0 cfg.TIBIA_STEP,
        Cmd.relative cfg.REAR_LEFT 0 0 cfg.TIBIA_STEP,
        Cmd.delay 160,
        Cmd.absolute cfg.FRONT_LEFT 0 cfg.COXA_NEUTRAL cfg.TIBIA_RAISED,
        Cmd.absolute cfg.MIDDLE_RIGHT 0 cfg.COXA_NEUTRAL cfg.TIBIA_RAISED,
        Cmd.absolute cfg.REAR_LEFT 0 cfg.COXA_NEUTRAL cfg.TIBIA_RAISED,
        Cmd.delay 160,
        Cmd.absolute cfg.FRONT_LEFT 0 cfg.COXA_NEUTRAL cfg.TIBIA_LOWERED,
        Cmd.absolute cfg.MIDDLE_RIGHT 0 cfg.COXA_NEUTRAL cfg.TIBIA_LOWERED,
        Cmd.absolute cfg.REAR_LEFT 0 cfg.COXA_NEUTRAL cfg.TIBIA_LOWERED,
        Cmd.delay 80,
        Cmd.relative cfg.FRONT_RIGHT 0 0 cfg.TIBIA_STEP,
        Cmd.relative cfg.MIDDLE_LEFT 0 0 cfg.TIBIA_STEP,
        Cmd.relative cfg.REAR_RIGHT 0 0 cfg.TIBIA_STEP,
        Cmd.delay 160,
        Cmd.absolute cfg.FRONT_RIGHT 0 cfg.COXA_NEUTRAL cfg.TIBIA_RAISED,
        Cmd.absolute cfg.MIDDLE_LEFT 0 cfg.COXA_NEUTRAL cfg.TIBIA_RAISED,
        Cmd.absolute cfg.REAR_RIGHT 0 cfg.COXA_NEUTRAL cfg.TIBIA_RAISED,
        Cmd.delay 160,
        Cmd.absolute cfg.FRONT_RIGHT 0 cfg.COXA_NEUTRAL cfg.TIBIA_LOWERED,
        Cmd.absolute cfg.MIDDLE_LEFT 0 cfg.COXA_NEUTRAL cfg.TIBIA_LOWERED,
        Cmd.absolute cfg.REAR_RIGHT 0 cfg.COXA_NEUTRAL cfg.TIBIA_LOWERED,
        Cmd.delay 80 ] ∧
    delays (gait_init cfg) = [160, 160, 80, 160, 160, 80] ∧
    (delays (gait_init cfg)).length = 6 ∧
    (delays (gait_init cfg)).sum = 800 ∧
    ∀ i : Nat, (gait_init_on cfg i).1 = i ∧ (gait_init_on cfg i).2 = gait_init cfg ∧
      ∀ v d : ℚ, gait_step cfg (gait_init_on cfg i).1 v d = gait_step cfg i v d := by
  have e2 : DELAY * 2 = 160 := by unfold DELAY; norm_num
  have e1 : DELAY * 1 = 80 := by unfold DELAY; norm_num
  have hd : delays (gait_init cfg) = [160, 160, 80, 160, 160, 80] := by
    simp only [gait_init, init_commands, e1, e2, List.cons_append, List.nil_append, delays]
  refine ⟨?_, hd, ?_, ?_, fun i => ⟨rfl, rfl, fun v d => rfl⟩⟩
  · simp only [gait_init, init_commands, e1, e2, List.cons_append, List.nil_append]
  · rw [hd]; rfl
  · rw [hd]; norm_num

/-! ## Monotonicity of the delay multiplier -/

/-- C14: the delay multiplier never decreases as the commanded speed
decreases.  For all magnitudes `a` and `b` with `|a| ≤ |b|`,
`get_delay_multiplier a ≥ get_delay_multiplier b`, and every result is one of
`1.0`, `1.3`, `1.5`, `1.8`. -/
theorem C14_delay_multiplier_antitone (a b : ℚ) (h : |a| ≤ |b|) :
    get_delay_multiplier a ≥ get_delay_multiplier b ∧
    (get_delay_multiplier a = 1.0 ∨ get_delay_multiplier a = 1.3 ∨
      get_delay_multiplier a = 1.5 ∨ get_delay_multiplier a = 1.8) := by
  constructor
  · unfold get_delay_multiplier
    split_ifs <;> first | (exfalso; linarith) | norm_num
  · unfold get_delay_multiplier
    split_ifs
    · exact Or.inl (by norm_num)
    · exact Or.inr (Or.inl rfl)
    · exact Or.inr (Or.inr (Or.inl rfl))
    · exact Or.inr (Or.inr (Or.inr rfl))

/-- C14 at `a = 0.4`, `b = -0.9`. -/
theorem C14_delay_multiplier_antitone_witness :
    |(0.4 : ℚ)| ≤ |(-0.9 : ℚ)| ∧
    get_delay_multiplier 0.4 ≥ get_delay_multiplier (-0.9) :=
  ⟨by norm_num [abs_le, le_abs],
   (C14_delay_multiplier_antitone 0.4 (-0.9) (by norm_num [abs_le, le_abs])).1⟩

/-! ## Symmetry and magnitudes in the velocity-dominant blend -/

/-- C15 (the code at the failing input): the commands `1, 0.6` and `1, -0.6`
are both velocity-dominant; the first resolves to `left_direction = 1`,
`right_direction = 0` (adjustment clamped to `1`), the second to
`left_direction = -0.2`, `right_direction = 1` (adjustment `-1.2`, not
clamped), so the left magnitude of `1, -0.6` is not the right magnitude of
`1, 0.6`. -/
theorem C15_mirror_fails_beyond_half :
    (|(1 : ℚ)| ≥ 0.2 ∧ |(0.6 : ℚ)| ≥ 0.2 ∧ |(1 : ℚ)| > |(0.6 : ℚ)|) ∧
    (|(1 : ℚ)| ≥ 0.2 ∧ |(-0.6 : ℚ)| ≥ 0.2 ∧ |(1 : ℚ)| > |(-0.6 : ℚ)|) ∧
    resolve 1 0.6 = some ⟨1, 0, 1⟩ ∧
    resolve 1 (-0.6) = some ⟨-0.2, 1, 1⟩ ∧
    (-0.2 : ℚ) ≠ 0 := by
  have a1 : |(1 : ℚ)| ≥ 0.2 := by norm_num
  have a2 : |(0.6 : ℚ)| ≥ 0.2 := by norm_num [le_abs]
  have a3 : |(1 : ℚ)| > |(0.6 : ℚ)| := by norm_num [abs_lt]
  have b2 : |(-0.6 : ℚ)| ≥ 0.2 := by norm_num [le_abs]
  have b3 : |(1 : ℚ)| > |(-0.6 : ℚ)| := by norm_num [abs_lt]
  refine ⟨⟨a1, a2, a3⟩, ⟨a1, b2, b3⟩, ?_, ?_, by norm_num⟩
  · rw [resolve_velocity_dominant_nonneg 1 0.6 a1 a2 a3 (by norm_num)]
    norm_num [get_delay_multiplier]
  · rw [resolve_velocity_dominant_neg 1 (-0.6) a1 b2 b3 (by norm_num)]
    norm_num [get_delay_multiplier]

/-- C16 (as stated, refuted): the velocity-dominant command `-1, -0.3` resolves
to `left_direction = -1.6`, `right_direction = -1`, so the left magnitude is
the larger one although `direction < 0`; and `-1, 0.3` resolves to
`left_direction = -1`, `right_direction = -1.6`, so the right magnitude is the
larger one although `direction ≥ 0`. -/
theorem C16_counterexample :
    (|(-1 : ℚ)| ≥ 0.2 ∧ |(-0.3 : ℚ)| ≥ 0.2 ∧ |(-1 : ℚ)| > |(-0.3 : ℚ)|) ∧
    resolve (-1) (-0.3) = some ⟨-1.6, -1, 1⟩ ∧
    ¬ (|(-1.6 : ℚ)| ≤ |(-1 : ℚ)|) ∧
    (|(-1 : ℚ)| ≥ 0.2 ∧ |(0.3 : ℚ)| ≥ 0.2 ∧ |(-1 : ℚ)| > |(0.3 : ℚ)|) ∧
    resolve (-1) 0.3 = some ⟨-1, -1.6, 1⟩ ∧
    ¬ (|(-1.6 : ℚ)| ≤ |(-1 : ℚ)|) := by
  have a1 : |(-1 : ℚ)| ≥ 0.2 := by norm_num
  have a2 : |(-0.3 : ℚ)| ≥ 0.2 := by norm_num [le_abs]
  have a3 : |(-1 : ℚ)| > |(-0.3 : ℚ)| := by norm_num [abs_lt]
  have b2 : |(0.3 : ℚ)| ≥ 0.2 := by norm_num [le_abs]
  have b3 : |(-1 : ℚ)| > |(0.3 : ℚ)| := by norm_num [abs_lt]
  have hn : ¬ (|(-1.6 : ℚ)| ≤ |(-1 : ℚ)|) := by norm_num [abs_le]
  refine ⟨⟨a1, a2, a3⟩, ?_, hn, ⟨a1, b2, b3⟩, ?_, hn⟩
  · rw [resolve_velocity_dominant_neg (-1) (-0.3) a1 a2 a3 (by norm_num)]
    norm_num [get_delay_multiplier]
  · rw [resolve_velocity_dominant_nonneg (-1) 0.3 a1 b2 b3 (by norm_num)]
    norm_num [get_delay_multiplier]

/-- C16 (amended): in the velocity-dominant blend with `velocity > 0`, veering
reduces the magnitude of the side veered toward: `|left_direction| ≤
|right_direction|` when `direction < 0` and `|right_direction| ≤
|left_direction|` when `direction ≥ 0`.  With `velocity < 0` the same
adjustment increases that magnitude instead, and the two inequalities are
reversed. -/
theorem C16_veering_magnitudes (v d : ℚ)
    (hv : |v| ≥ 0.2) (hd : |d| ≥ 0.2) (hvd : |v| > |d|) :
    (0 < v →
      (d < 0 → ∃ r, resolve v d = some r ∧ |r.left_direction| ≤ |r.right_direction|) ∧
      (d ≥ 0 → ∃ r, resolve v d = some r ∧ |r.right_direction| ≤ |r.left_direction|)) ∧
    (v < 0 →
      (d < 0 → ∃ r, resolve v d = some r ∧ |r.right_direction| ≤ |r.left_direction|) ∧
      (d ≥ 0 → ∃ r, resolve v d = some r ∧ |r.left_direction| ≤ |r.right_direction|)) := by
  refine ⟨fun hpos => ⟨fun hneg => ?_, fun hnn => ?_⟩,
    fun hvn => ⟨fun hneg => ?_, fun hnn => ?_⟩⟩
  · refine ⟨_, resolve_velocity_dominant_neg v d hv hd hvd hneg, ?_⟩
    show |v + min 1 (d * 2)| ≤ |v|
    have hm : min 1 (d * 2) = d * 2 := min_eq_right (by linarith)
    rw [hm, abs_of_pos hpos, abs_le]
    rw [abs_of_pos hpos, abs_of_neg hneg] at hvd
    constructor <;> linarith
  · refine ⟨_, resolve_velocity_dominant_nonneg v d hv hd hvd (not_lt.mpr hnn), ?_⟩
    show |v - min 1 (d * 2)| ≤ |v|
    have h1 : min 1 (d * 2) ≤ d * 2 := min_le_right _ _
    have h2 : (0 : ℚ) ≤ min 1 (d * 2) := le_min (by norm_num) (by linarith)
    rw [abs_of_pos hpos, abs_le]
    rw [abs_of_pos hpos, abs_of_nonneg hnn] at hvd
    constructor <;> linarith
  · refine ⟨_, resolve_velocity_dominant_neg v d hv hd hvd hneg, ?_⟩
    show |v| ≤ |v + min 1 (d * 2)|
    have hm : min 1 (d * 2) = d * 2 := min_eq_right (by linarith)
    rw [hm, abs_of_neg hvn, abs_of_neg (by linarith)]
    linarith
  · refine ⟨_, resolve_velocity_dominant_nonneg v d hv hd hvd (not_lt.mpr hnn), ?_⟩
    show |v| ≤ |v - min 1 (d * 2)|
    have h2 : (0 : ℚ) ≤ min 1 (d * 2) := le_min (by norm_num) (by linarith)
    rw [abs_of_neg hvn, abs_of_neg (by linarith)]
    linarith

/-- C16 (amended) at the command `1, -0.3`. -/
theorem C16_veering_magnitudes_witness :
    |(1 : ℚ)| ≥ 0.2 ∧ |(-0.3 : ℚ)| ≥ 0.2 ∧ |(1 : ℚ)| > |(-0.3 : ℚ)| ∧
    ((0 : ℚ) < 1 → (-0.3 : ℚ) < 0 →
      ∃ r, resolve 1 (-0.3) = some r ∧ |r.left_direction| ≤ |r.right_direction|) :=
  ⟨by norm_num, by norm_num [le_abs], by norm_num [abs_lt],
   fun h1 h2 => ((C16_veering_magnitudes 1 (-0.3) (by norm_num) (by norm_num [le_abs])
      (by norm_num [abs_lt])).1 h1).1 h2⟩

/-! ## Swing, stance and settle targets -/

/-- Swing and settle targets on commands that issue motion.  In every
`gait_step` call that does not fall through to the final `else`, where a leg's side magnitude is `left_direction` if its identifier is
even and `right_direction` if odd (which is what the bit test of the code
computes), the absolute calls are, in order: for each active leg the swing call
with `COXA_REVERSE` when its side magnitude is `> 0` and `COXA_FORWARD`
otherwise, with `TIBIA_RAISED`; for each stance leg the call with
`COXA_FORWARD * (its side magnitude)` and `TIBIA_LOWERED`; for each active leg
the settle call with the same coxa value as its swing call and
`TIBIA_LOWERED`.  Tie commands `|velocity| = |direction| ≥ 0.2` are not
covered: they issue nothing. -/
theorem swing_settle_targets_of_motion_command (cfg : Config) (i : Nat) (v d : ℚ) (r : Resolved)
    (h : resolve v d = some r) :
    (∀ leg : Nat, relevant_direction r leg = side_magnitude r leg) ∧
    absoluteCalls (gait_step cfg i v d).2 =
      (select_legs cfg ((i ^^^ 0x01) % 256)).1.map (fun leg =>
        (leg, (0 : ℚ),
          if side_magnitude r leg > 0 then cfg.COXA_REVERSE else cfg.COXA_FORWARD,
          cfg.TIBIA_RAISED))
      ++ (select_legs cfg ((i ^^^ 0x01) % 256)).2.map (fun leg =>
        (leg, (0 : ℚ), cfg.COXA_FORWARD * side_magnitude r leg, cfg.TIBIA_LOWERED))
      ++ (select_legs cfg ((i ^^^ 0x01) % 256)).1.map (fun leg =>
        (leg, (0 : ℚ),
          if side_magnitude r leg > 0 then cfg.COXA_REVERSE else cfg.COXA_FORWARD,
          cfg.TIBIA_LOWERED)) := by
  refine ⟨relevant_direction_eq_side_magnitude r, ?_⟩
  rw [gait_step_snd_of_some cfg i v d r h]
  have hs : ∀ leg : Nat, swing_coxa cfg r leg =
      if side_magnitude r leg > 0 then cfg.COXA_REVERSE else cfg.COXA_FORWARD := by
    intro leg
    unfold swing_coxa
    rw [relevant_direction_eq_side_magnitude]
  simp only [step_commands, absoluteCalls_append, absoluteCalls_map_relative,
    absoluteCalls_map_absolute, absoluteCalls, List.nil_append, List.append_nil,
    hs, relevant_direction_eq_side_magnitude]

/-- The targets with the sample configuration, at the command `0.5, 0` from the
bit at `0`. -/
theorem swing_settle_targets_of_motion_command_example :
    resolve 0.5 0 = some ⟨0.5, 0.5, 1.3⟩ ∧
    ∀ leg : Nat, relevant_direction ⟨0.5, 0.5, 1.3⟩ leg = side_magnitude ⟨0.5, 0.5, 1.3⟩ leg :=
  ⟨resolve_half_zero,
   (swing_settle_targets_of_motion_command sampleConfig 0 0.5 0 ⟨0.5, 0.5, 1.3⟩
      resolve_half_zero).1⟩

/-- C17 (the code at the failing input): the command `0.5, 0.5` is not below
both cutoffs, yet the call from the bit at `0` issues no absolute call: the
active legs `1, 2, 5` get no swing and no settle call and the stance legs
`0, 3, 4` get no call. -/
theorem C17_tie_issues_no_targets :
    ¬ (|(0.5 : ℚ)| < 0.2 ∧ |(0.5 : ℚ)| < 0.2) ∧
    select_legs sampleConfig ((0 ^^^ 0x01) % 256) = ([1, 2, 5], [0, 3, 4]) ∧
    absoluteCalls (gait_step sampleConfig 0 0.5 0.5).2 = [] ∧
    relativeCalls (gait_step sampleConfig 0 0.5 0.5).2 = [] := by
  have t : (gait_step sampleConfig 0 0.5 0.5).2 = [] :=
    gait_step_snd_of_none _ _ _ _ resolve_tie_half.2
  rw [t]
  exact ⟨resolve_tie_half.1, by decide, rfl, rfl⟩

/-! ## Argument positions -/

/-- C18 (as stated, refuted): reading the three arguments after the leg as
(coxa, femur, tibia), the call `gait_step(0.5, 0)` from the bit at `0` issues
the absolute call `(leg 1, 0, COXA_REVERSE, TIBIA_RAISED)`: with the sample
configuration the value in the femur position is `-10`, not `0`, and the value
in the coxa position is `0`, not the coxa target `COXA_REVERSE`. -/
theorem C18_counterexample :
    Cmd.absolute 1 0 (-10) 30 ∈ (gait_step sampleConfig 0 0.5 0).2 ∧
    sampleConfig.COXA_REVERSE = -10 ∧ sampleConfig.TIBIA_RAISED = 30 ∧
    (-10 : ℚ) ≠ 0 ∧ (0 : ℚ) ≠ sampleConfig.COXA_REVERSE := by
  refine ⟨?_, rfl, rfl, by norm_num, ?_⟩
  · rw [gait_step_snd_of_some sampleConfig 0 0.5 0 _ resolve_half_zero,
      absolute_mem_step_commands]
    refine Or.inl ⟨?_, rfl, ?_, rfl⟩
    · decide
    · have hrel : relevant_direction ⟨0.5, 0.5, 1.3⟩ 1 = 0.5 := by
        unfold relevant_direction
        rw [if_neg (by decide)]
      unfold swing_coxa
      rw [hrel, if_pos (by norm_num)]
      rfl
  · show (0 : ℚ) ≠ -10
    norm_num

/-- C18 (amended): every call issued by `gait_step` and `gait_init` passes `0`
as the first argument after the leg identifier.  A relative call also passes
`0` as the second and `TIBIA_STEP` as the third.  An absolute call passes its
coxa target (`COXA_REVERSE` or `COXA_FORWARD`, the proportional value
`COXA_FORWARD * relevant_direction`, or `COXA_NEUTRAL` in `gait_init`) as the
second argument after the leg identifier and `TIBIA_RAISED` or `TIBIA_LOWERED`
as the third. -/
theorem C18_argument_positions (cfg : Config) (i : Nat) (v d : ℚ) :
    (∀ (leg : Nat) (x y z : ℚ), Cmd.relative leg x y z ∈ (gait_step cfg i v d).2 →
      x = 0 ∧ y = 0 ∧ z = cfg.TIBIA_STEP) ∧
    (∀ (leg : Nat) (x y z : ℚ), Cmd.absolute leg x y z ∈ (gait_step cfg i v d).2 →
      x = 0 ∧
      (y = cfg.COXA_REVERSE ∨ y = cfg.COXA_FORWARD ∨
        ∃ r, resolve v d = some r ∧ y = cfg.COXA_FORWARD * relevant_direction r leg) ∧
      (z = cfg.TIBIA_RAISED ∨ z = cfg.TIBIA_LOWERED)) ∧
    (∀ (leg : Nat) (x y z : ℚ), Cmd.relative leg x y z ∈ gait_init cfg →
      x = 0 ∧ y = 0 ∧ z = cfg.TIBIA_STEP) ∧
    (∀ (leg : Nat) (x y z : ℚ), Cmd.absolute leg x y z ∈ gait_init cfg →
      x = 0 ∧ y = cfg.COXA_NEUTRAL ∧
      (z = cfg.TIBIA_RAISED ∨ z = cfg.TIBIA_LOWERED)) := by
  have hswing : ∀ (r : Resolved) (leg : Nat),
      swing_coxa cfg r leg = cfg.COXA_REVERSE ∨ swing_coxa cfg r leg = cfg.COXA_FORWARD := by
    intro r leg
    unfold swing_coxa
    split_ifs
    · exact Or.inl rfl
    · exact Or.inr rfl
  refine ⟨?_, ?_, ?_, ?_⟩
  · intro leg x y z hmem
    cases hr : resolve v d with
    | none => rw [gait_step_snd_of_none cfg i v d hr] at hmem; cases hmem
    | some r =>
      rw [gait_step_snd_of_some cfg i v d r hr] at hmem
      exact ((relative_mem_step_commands _ _ _ _ _ _ _ _).mp hmem).2
  · intro leg x y z hmem
    cases hr : resolve v d with
    | none => rw [gait_step_snd_of_none cfg i v d hr] at hmem; cases hmem
    | some r =>
      rw [gait_step_snd_of_some cfg i v d r hr] at hmem
      rcases (absolute_mem_step_commands _ _ _ _ _ _ _ _).mp hmem with
        ⟨_, hx, hy, hz⟩ | ⟨_, hx, hy, hz⟩ | ⟨_, hx, hy, hz⟩
      · refine ⟨hx, ?_, Or.inl hz⟩
        rcases hswing r leg with hsw | hsw
        · exact Or.inl (hy.trans hsw)
        · exact Or.inr (Or.inl (hy.trans hsw))
      · exact ⟨hx, Or.inr (Or.inr ⟨r, rfl, hy⟩), Or.inr hz⟩
      · refine ⟨hx, ?_, Or.inr hz⟩
        rcases hswing r leg with hsw | hsw
        · exact Or.inl (hy.trans hsw)
        · exact Or.inr (Or.inl (hy.trans hsw))
  · intro leg x y z hmem
    simp only [gait_init, init_commands, List.mem_append, List.mem_cons,
      List.mem_singleton, List.not_mem_nil, or_false, Cmd.relative.injEq,
      reduceCtorEq, false_or] at hmem
    rcases hmem with (h | h | h) | (h | h | h) <;>
      exact ⟨h.2.1, h.2.2.1, h.2.2.2⟩
  · intro leg x y z hmem
    simp only [gait_init, init_commands, List.mem_append, List.mem_cons,
      List.mem_singleton, List.not_mem_nil, or_false, Cmd.absolute.injEq,
      reduceCtorEq, false_or] at hmem
    rcases hmem with (h | h | h | h | h | h) | (h | h | h | h | h | h)
    · exact ⟨h.2.1, h.2.2.1, Or.inl h.2.2.2⟩
    · exact ⟨h.2.1, h.2.2.1, Or.inl h.2.2.2⟩
    · exact ⟨h.2.1, h.2.2.1, Or.inl h.2.2.2⟩
    · exact ⟨h.2.1, h.2.2.1, Or.inr h.2.2.2⟩
    · exact ⟨h.2.1, h.2.2.1, Or.inr h.2.2.2⟩
    · exact ⟨h.2.1, h.2.2.1, Or.inr h.2.2.2⟩
    · exact ⟨h.2.1, h.2.2.1, Or.inl h.2.2.2⟩
    · exact ⟨h.2.1, h.2.2.1, Or.inl h.2.2.2⟩
    · exact ⟨h.2.1, h.2.2.1, Or.inl h.2.2.2⟩
    · exact ⟨h.2.1, h.2.2.1, Or.inr h.2.2.2⟩
    · exact ⟨h.2.1, h.2.2.1, Or.inr h.2.2.2⟩
    · exact ⟨h.2.1, h.2.2.1, Or.inr h.2.2.2⟩

/-! ## Timing and the dominant component -/

/-- C19: timing follows the dominant component.  For every command on which
`gait_step` issues motion, the value passed to `get_delay_multiplier` is
`velocity` or `direction` and has absolute value `max |velocity| |direction|`,
so the multiplier of the step is
`get_delay_multiplier (max |velocity| |direction|)` and the total delay of the
call is `400` times that. -/
theorem C19_timing_follows_dominant (cfg : Config) (i : Nat) (v d : ℚ) (r : Resolved)
    (h : resolve v d = some r) :
    (∃ x : ℚ, (x = v ∨ x = d) ∧ |x| = max |v| |d| ∧
      r.delay_multiplier = get_delay_multiplier x) ∧
    r.delay_multiplier = get_delay_multiplier (max |v| |d|) ∧
    (delays (gait_step cfg i v d).2).sum = 400 * get_delay_multiplier (max |v| |d|) := by
  have key : ∃ x : ℚ, (x = v ∨ x = d) ∧ |x| = max |v| |d| ∧
      r.delay_multiplier = get_delay_multiplier x := by
    unfold resolve PRIMARY_CUTOFF SECONDARY_CUTOFF at h
    split_ifs at h with h1 h2 h3 h4 h5 h6
    · injection h with h; subst h
      exact ⟨v, Or.inl rfl, (max_eq_left (by linarith [h1.1, h1.2])).symm, rfl⟩
    · injection h with h; subst h
      exact ⟨v, Or.inl rfl, (max_eq_left (le_of_lt h2.2.2)).symm, rfl⟩
    · injection h with h; subst h
      exact ⟨v, Or.inl rfl, (max_eq_left (le_of_lt h2.2.2)).symm, rfl⟩
    · injection h with h; subst h
      exact ⟨d, Or.inr rfl, (max_eq_right (le_of_lt h4.2.2)).symm, rfl⟩
    · injection h with h; subst h
      exact ⟨d, Or.inr rfl, (max_eq_right (le_of_lt h4.2.2)).symm, rfl⟩
    · injection h with h; subst h
      exact ⟨d, Or.inr rfl, (max_eq_right (by linarith [h6.1, h6.2])).symm, rfl⟩
  have hm : r.delay_multiplier = get_delay_multiplier (max |v| |d|) := by
    obtain ⟨x, _, hx, hr⟩ := key
    rw [hr, ← hx, get_delay_multiplier_abs]
  refine ⟨key, hm, ?_⟩
  rw [gait_step_snd_of_some cfg i v d r h, delays_sum_step_commands, hm]

/-- C19 with the sample configuration, at the command `0.5, 0`. -/
theorem C19_timing_follows_dominant_witness :
    resolve 0.5 0 = some ⟨0.5, 0.5, 1.3⟩ ∧
    (delays (gait_step sampleConfig 0 0.5 0).2).sum =
      400 * get_delay_multiplier (max |(0.5 : ℚ)| |(0 : ℚ)|) :=
  ⟨resolve_half_zero,
   (C19_timing_follows_dominant sampleConfig 0 0.5 0 ⟨0.5, 0.5, 1.3⟩
      resolve_half_zero).2.2⟩

/-- C20: in the direction-dominant blend the sign of velocity has no effect.
For every command `(v, d)` with `|d| ≥ 0.2`, `|v| ≥ 0.2` and `|d| > |v|`, the
branch cascade assigns `left_direction = d` and `right_direction = -d - |v|`
(with multiplier `get_delay_multiplier d`), so `gait_step(v, d)` and
`gait_step(-v, d)` started from the same alternation bit leave the same bit and
emit identical command traces. -/
theorem C20_velocity_sign_irrelevant (cfg : Config) (i : Nat) (v d : ℚ)
    (hd : |d| ≥ 0.2) (hv : |v| ≥ 0.2) (hdv : |d| > |v|) :
    resolve v d = some { left_direction := d, right_direction := -d - |v|,
                         delay_multiplier := get_delay_multiplier d } ∧
    resolve (-v) d = resolve v d ∧
    gait_step cfg i (-v) d = gait_step cfg i v d := by
  have key : ∀ w : ℚ, |w| ≥ 0.2 → |d| > |w| →
      resolve w d = some ⟨d, -d - |w|, get_delay_multiplier d⟩ := by
    intro w hw hdw
    by_cases hneg : w < 0
    · rw [resolve_direction_dominant_neg w d hd hw hdw hneg, abs_of_neg hneg]
      congr 2
      ring
    · rw [resolve_direction_dominant_nonneg w d hd hw hdw hneg,
        abs_of_nonneg (not_lt.mp hneg)]
      congr 2
      ring
  have h1 := key v hv hdv
  have h2 : resolve (-v) d = resolve v d := by
    rw [h1, key (-v) (by rwa [abs_neg]) (by rwa [abs_neg]), abs_neg]
  refine ⟨h1, h2, ?_⟩
  unfold gait_step
  rw [h2]

/-- C20 with the sample configuration, at the command `-0.3, 0.9`. -/
theorem C20_velocity_sign_irrelevant_witness :
    |(0.9 : ℚ)| ≥ 0.2 ∧ |(-0.3 : ℚ)| ≥ 0.2 ∧ |(0.9 : ℚ)| > |(-0.3 : ℚ)| ∧
    gait_step sampleConfig 0 (-(-0.3)) 0.9 = gait_step sampleConfig 0 (-0.3) 0.9 :=
  ⟨by norm_num [le_abs], by norm_num [le_abs], by norm_num [abs_lt, lt_abs],
   (C20_velocity_sign_irrelevant sampleConfig 0 (-0.3) 0.9 (by norm_num [le_abs])
      (by norm_num [le_abs]) (by norm_num [abs_lt, lt_abs])).2.2⟩

end Tripod
